import Mathlib

/-!
Verification development for the JSON-RPC 2.0 transport-and-dispatch engine of
the robotcode repository (`robotcode/jsonrpc2/protocol.py`).

The Python source is shallowly embedded: bytes are `Nat` values (0..255),
byte strings are `List Nat`, Python dicts are association lists whose insert
keeps the position of an existing key (as CPython dicts do), and the stateful
protocol object is a state-passing structure.  Each definition is annotated
with the source location it embeds.
-/

namespace RobotCode

/-! ### Association-list model of a Python `dict`

CPython dict semantics: assignment to an existing key replaces the value in
place (keeping insertion order), assignment to a fresh key appends; `get`
returns the value or a default; `pop(k, None)` removes the entry if present.
-/

/-- `d[k] = v` on a Python dict. -/
def assocPut {κ α : Type _} [DecidableEq κ] (k : κ) (v : α) : List (κ × α) → List (κ × α)
  | [] => [(k, v)]
  | (k₁, v₁) :: rest => if k₁ = k then (k, v) :: rest else (k₁, v₁) :: assocPut k v rest

/-- `d.get(k, None)` on a Python dict. -/
def assocGet {κ α : Type _} [DecidableEq κ] (k : κ) : List (κ × α) → Option α
  | [] => none
  | (k₁, v₁) :: rest => if k₁ = k then some v₁ else assocGet k rest

/-- `d.pop(k, None)` on a Python dict (the resulting dict). -/
def assocDel {κ α : Type _} [DecidableEq κ] (k : κ) : List (κ × α) → List (κ × α)
  | [] => []
  | (k₁, v₁) :: rest => if k₁ = k then rest else (k₁, v₁) :: assocDel k rest

/-- The keys of a dict, in insertion order. -/
def assocKeys {κ α : Type _} (l : List (κ × α)) : List κ := l.map (·.1)

/-! ### Framer: `JsonRPCProtocolBase.MESSAGE_PATTERN` and `data_received`
(protocol.py lines 387-417).

The regex

  `(?:[^\r\n]*\r\n)*`
  `(Content-Length: ?(?P<length>\d+)\r\n)`
  `((Content-Type: ?(?P<content_type>[^\r\n;]+)(; *(charset=(?P<charset>[^\r\n]+))?)?\r\n)|(?:[^\r\n]+\r\n))*`
  `\r\n(?P<body>.*)`  (DOTALL)

is embedded as a deterministic matcher plus an explicit search over the one
real backtracking choice point.  Inside `[^\r\n]*\r\n` the starred class can
never contain the `\r` that must follow it, so each repetition of the leading
group consumes exactly one complete CRLF-terminated line; the only choice the
backtracking engine has is how many leading lines to skip, tried greedily
(most lines first).  The same argument makes every other quantifier in the
pattern deterministic: `\d+` must be followed by `\r\n`, ` *` by `charset=`
or `\r\n`, `[^\r\n;]+` by `;` or `\r\n`, `[^\r\n]+` by `\r\n`, and in each
case a shorter repetition puts a character of the repeated class where the
follower is required, so no alternative repetition count can match.
-/

/-- One repetition of `[^\r\n]*\r\n`: consume the (unique) complete line,
returning the rest, or fail. -/
def lineStep : List Nat → Option (List Nat)
  | [] => none
  | b :: rest =>
    if b = 13 then
      match rest with
      | 10 :: r => some r
      | _ => none
    else if b = 10 then none
    else lineStep rest

/-- Expect a literal byte sequence, returning the remainder. -/
def dropLit : List Nat → List Nat → Option (List Nat)
  | [], s => some s
  | _ :: _, [] => none
  | l :: ls, b :: bs => if b = l then dropLit ls bs else none

/-- The run matched by a greedy starred character class. -/
def takeWhileB (p : Nat → Bool) : List Nat → List Nat
  | [] => []
  | b :: rest => if p b then b :: takeWhileB p rest else []

/-- The rest after a greedy starred character class. -/
def dropWhileB (p : Nat → Bool) : List Nat → List Nat
  | [] => []
  | b :: rest => if p b then dropWhileB p rest else b :: rest

def isDigitB (b : Nat) : Bool := 48 ≤ b && b ≤ 57

def notCRLF (b : Nat) : Bool := !(b = 13) && !(b = 10)

def notCRLFSemi (b : Nat) : Bool := !(b = 13) && !(b = 10) && !(b = 59)

/-- `int()` of a run of ASCII digit bytes. -/
def decNat (ds : List Nat) : Nat := ds.foldl (fun a d => a * 10 + (d - 48)) 0

/-- ASCII bytes of `"Content-Length:"`. -/
def clLit : List Nat := [67, 111, 110, 116, 101, 110, 116, 45, 76, 101, 110, 103, 116, 104, 58]

/-- ASCII bytes of `"Content-Type:"`. -/
def ctLit : List Nat := [67, 111, 110, 116, 101, 110, 116, 45, 84, 121, 112, 101, 58]

/-- ASCII bytes of `"charset="`. -/
def charsetLit : List Nat := [99, 104, 97, 114, 115, 101, 116, 61]

/-- ASCII bytes of `"utf-8"` — `JsonRPCProtocolBase.CHARSET`. -/
def defaultCharset : List Nat := [117, 116, 102, 45, 56]

/-- `" ?"` after the header name: one optional space (a space is never a
digit nor the start of `charset=`, so the option is deterministic). -/
def optSpace : List Nat → List Nat
  | [] => []
  | b :: rest => if b = 32 then rest else b :: rest

/-- `Content-Length: ?(?P<length>\d+)\r\n` — the declared length and rest. -/
def parseContentLength (s : List Nat) : Option (Nat × List Nat) :=
  match dropLit clLit s with
  | none => none
  | some s₁ =>
    let s₂ := optSpace s₁
    let ds := takeWhileB isDigitB s₂
    let s₃ := dropWhileB isDigitB s₂
    if ds.isEmpty then none
    else
      match dropLit [13, 10] s₃ with
      | none => none
      | some s₄ => some (decNat ds, s₄)

/-- `Content-Type: ?([^\r\n;]+)(; *(charset=(?P<charset>[^\r\n]+))?)?\r\n`:
returns the charset capture of this line (if its group participated) and the
rest.  If the inner `charset=` route fails, the regex backtracks to the line
ending right after the optional spaces; any other shape makes the whole
alternative fail (and the generic nonempty-line alternative take over). -/
def parseContentType (s : List Nat) : Option (Option (List Nat) × List Nat) :=
  match dropLit ctLit s with
  | none => none
  | some s₁ =>
    let s₂ := optSpace s₁
    let ct := takeWhileB notCRLFSemi s₂
    let s₃ := dropWhileB notCRLFSemi s₂
    if ct.isEmpty then none
    else
      match s₃ with
      | 13 :: 10 :: r => some (none, r)
      | 59 :: r =>
        let r₂ := dropWhileB (fun b => b = 32) r
        match dropLit charsetLit r₂ with
        | some r₃ =>
          let cs := takeWhileB notCRLF r₃
          let r₄ := dropWhileB notCRLF r₃
          match r₄, cs.isEmpty with
          | 13 :: 10 :: r₅, false => some (some cs, r₅)
          | _, _ =>
            match r₂ with
            | 13 :: 10 :: r₅ => some (none, r₅)
            | _ => none
        | none =>
          match r₂ with
          | 13 :: 10 :: r₅ => some (none, r₅)
          | _ => none
      | _ => none

/-- `[^\r\n]+\r\n` — a generic nonempty header line. -/
def parseOtherLine (s : List Nat) : Option (List Nat) :=
  let run := takeWhileB notCRLF s
  let rest := dropWhileB notCRLF s
  if run.isEmpty then none
  else
    match rest with
    | 13 :: 10 :: r => some r
    | _ => none

/-- The starred header-line group after the Content-Length line.  Repetitions
are consumed greedily; a later `charset` capture overwrites an earlier one,
and a Content-Type line without the charset group keeps the previous capture
(Python retains the last successful capture of a group).  Each repetition
consumes at least one byte, so fuel `s.length` is never exhausted. -/
def parseHeadersAux : Nat → Option (List Nat) → List Nat → Option (List Nat) × List Nat
  | 0, cs, s => (cs, s)
  | fuel + 1, cs, s =>
    match parseContentType s with
    | some (csNew, r) => parseHeadersAux fuel (match csNew with | some c => some c | none => cs) r
    | none =>
      match parseOtherLine s with
      | some r => parseHeadersAux fuel cs r
      | none => (cs, s)

/-- Result of a successful `MESSAGE_PATTERN` match: the `length`, `charset`
and `body` groups. -/
structure MatchRes where
  length : Nat
  charset : Option (List Nat)
  body : List Nat
deriving DecidableEq, Repr

/-- The pattern after the leading line-skipping group: the Content-Length
line, further header lines, the blank line, and the body (`.*` with DOTALL
captures the entire rest). -/
def matchAfter (s : List Nat) : Option MatchRes :=
  match parseContentLength s with
  | none => none
  | some (n, s₁) =>
    let (cs, s₂) := parseHeadersAux s₁.length none s₁
    match dropLit [13, 10] s₂ with
    | none => none
    | some s₃ => some ⟨n, cs, s₃⟩

/-- `MESSAGE_PATTERN.match`: try the rest of the pattern after skipping as
many leading lines as possible, preferring more skipped lines (the greedy
backtracking order of `(?:[^\r\n]*\r\n)*`).  Each skipped line removes at
least two bytes, so fuel `s.length` suffices. -/
def messageMatchFuel : Nat → List Nat → Option MatchRes
  | 0, s => matchAfter s
  | fuel + 1, s =>
    match lineStep s with
    | some r =>
      match messageMatchFuel fuel r with
      | some m => some m
      | none => matchAfter s
    | none => matchAfter s

def messageMatch (s : List Nat) : Option MatchRes :=
  messageMatchFuel s.length s

/-- State of `JsonRPCProtocolBase`: the `_message_buf` field. -/
structure FramerState where
  messageBuf : List Nat
deriving DecidableEq, Repr

/-- The `while len(data)` loop of `data_received` (protocol.py 396-417).
Each iteration appends the pending data to the buffer, matches, and either
returns (buffering everything) when fewer body bytes than the declared
length are available — with `length` defaulting to `1` and `body` to empty
when the pattern does not match — or emits `body[:length]` with the header
charset (default UTF-8), clears the buffer and continues on the surplus
`body[length:]`.  Returns the final state and the emitted `(body, charset)`
list.  Fuel: after the first iteration the buffer is empty and the pending
data strictly shrinks, so `buf.length + data.length + 1` is never exhausted
(the fuel-out branch mirrors the no-match return and is unreachable). -/
def dataLoop : Nat → List Nat → List Nat → FramerState × List (List Nat × List Nat)
  | _, buf, [] => (⟨buf⟩, [])
  | 0, buf, data => (⟨buf ++ data⟩, [])
  | fuel + 1, buf, data@(_ :: _) =>
    let nb := buf ++ data
    match messageMatch nb with
    | none => (⟨nb⟩, [])
    | some m =>
      if m.body.length < m.length then (⟨nb⟩, [])
      else
        let out := (m.body.take m.length, m.charset.getD defaultCharset)
        let (st, rest) := dataLoop fuel [] (m.body.drop m.length)
        (st, out :: rest)

/-- `JsonRPCProtocolBase.data_received`. -/
def dataReceived (st : FramerState) (data : List Nat) : FramerState × List (List Nat × List Nat) :=
  dataLoop (st.messageBuf.length + data.length + 1) st.messageBuf data

/-- Feed a sequence of chunks to `data_received`, collecting everything the
framer hands to `_handle_body`. -/
def feedChunks (st : FramerState) : List (List Nat) → FramerState × List (List Nat × List Nat)
  | [] => (st, [])
  | c :: cs =>
    let (st₁, e₁) := dataReceived st c
    let (st₂, e₂) := feedChunks st₁ cs
    (st₂, e₁ ++ e₂)

/-- Decimal ASCII digits of a natural number, most significant first
(the bytes of Python `f"{n}"` as used when building a frame).  Structural
fuel recursion so the kernel can evaluate it; fuel `n` always suffices
because `n / 10 < n` whenever `n ≥ 10`. -/
def natDigitsAux : Nat → Nat → List Nat
  | 0, n => [48 + n % 10]
  | fuel + 1, n => if n < 10 then [48 + n] else natDigitsAux fuel (n / 10) ++ [48 + n % 10]

def natDigitsB (n : Nat) : List Nat := natDigitsAux n n

/-- A canonical length-prefixed frame: a Content-Length header (with one
space), a blank line, and the body. -/
def clHeaderBytes (n : Nat) : List Nat := clLit ++ [32] ++ natDigitsB n ++ [13, 10]

def mkFrame (body : List Nat) : List Nat := clHeaderBytes body.length ++ [13, 10] ++ body

/-- The body `"x\r\nContent-Length: 1\r\n\r\nY"` (25 bytes): a perfectly
declared body that itself contains a header-like block. -/
def trickyBody : List Nat := [120, 13, 10] ++ clLit ++ [32, 49, 13, 10, 13, 10, 89]

/-- A buffer that makes `data_received` return without emitting: either the
pattern does not match, or fewer body bytes than the declared length have
arrived. -/
def noEmit (s : List Nat) : Prop :=
  messageMatch s = none ∨ ∃ m, messageMatch s = some m ∧ m.body.length < m.length

/-! ### Message model, registry and dispatcher
(`protocol.py` 69-134, 145-330, 424-762).

JSON payload values are modeled to nesting depth two (atoms plus one level of
arrays/objects of atoms), which covers every payload the claims quantify
over; ids are `int | str | None` as in the source. -/

inductive JAtom where
  | nullA
  | boolA (b : Bool)
  | numA (n : Int)
  | strA (s : String)
deriving DecidableEq, Repr

inductive JVal where
  | nullV
  | boolV (b : Bool)
  | numV (n : Int)
  | strV (s : String)
  | arrV (l : List JAtom)
  | objV (l : List (String × JAtom))
deriving DecidableEq, Repr

def atomToVal : JAtom → JVal
  | .nullA => .nullV
  | .boolA b => .boolV b
  | .numA n => .numV n
  | .strA s => .strV s

/-- `Union[int, str, None]` message ids. -/
inductive RpcId where
  | num (n : Int)
  | str (s : String)
  | null
deriving DecidableEq, Repr

/-- The four dataclasses `JsonRPCRequest`, `JsonRPCNotification`,
`JsonRPCResponse`, `JsonRPCError` (84-122); the `JsonRPCErrorObject` of an
Error is flattened into its constructor and the unused optional `result`
field of `JsonRPCError` is omitted. -/
inductive JsonRpcMsg where
  | request (id : RpcId) (method : String) (params : Option JVal)
  | notification (method : String) (params : Option JVal)
  | response (id : RpcId) (result : Option JVal)
  | errorResp (id : RpcId) (code : Int) (message : Option String) (data : Option JVal)
deriving DecidableEq, Repr

/-! The error codes of class `JsonRPCErrors` (69-78). -/

namespace JsonRPCErrors

def PARSE_ERROR : Int := -32700

def INVALID_REQUEST : Int := -32600

def METHOD_NOT_FOUND : Int := -32601

def INVALID_PARAMS : Int := -32602

def INTERNAL_ERROR : Int := -32603

def REQUEST_CANCELLED : Int := -32800

end JsonRPCErrors

/-- Modelled from the spec: the declared result/parameter type objects that
`from_dict` converts to (`utils/dataclasses` is not among the sources;
spec 4.4: "Convert `result` to the declared result type"). -/
inductive RType where
  | anyT
  | intT
  | strT
  | boolT
deriving DecidableEq, Repr

/-- Modelled from the spec: `from_dict(value, declared_type)` — the identity
when no type is declared, a checked conversion (raising on mismatch,
modeled as `Except.error`) otherwise. -/
def fromDictModel : Option RType → JVal → Except String JVal
  | none, v => .ok v
  | some .anyT, v => .ok v
  | some .intT, .numV n => .ok (.numV n)
  | some .strT, .strV s => .ok (.strV s)
  | some .boolT, .boolV b => .ok (.boolV b)
  | some _, _ => .error "Cannot convert value to declared result type"

/-- Observable state of an `asyncio` task/future: `done()`, `cancelled()`,
and whether `cancel()` has been called on it.  Cancellation of a running
task is cooperative: `cancel()` on a non-done task only requests it
(`cancelled()` stays false until the task actually finishes); `cancel()` on
a done task is a no-op. -/
structure FutModel where
  done : Bool
  cancelled : Bool
  cancelRequested : Bool
deriving DecidableEq, Repr

def FutModel.cancel (f : FutModel) : FutModel :=
  if f.done then f else { f with cancelRequested := true }

def freshFut : FutModel := ⟨false, false, false⟩

/-- `SendedRequestEntry` (330-332): the pending future and the declared
result type. -/
structure SendedRequestEntry where
  fut : FutModel
  resultType : Option RType
deriving DecidableEq, Repr

/-- `ReceivedRequestEntry` (335-338). -/
structure ReceivedRequestEntry where
  fut : FutModel
  request : Option JsonRpcMsg
  cancelable : Bool
deriving DecidableEq, Repr

/-- `RpcMethodEntry` (145-149), polymorphic in the handler representation
(`H` is instantiated with an outcome function where handlers must run, and
with a plain token where decidable equality is wanted). -/
structure RpcMethodEntry (H : Type _) where
  name : String
  method : H
  paramType : Option RType
  cancelable : Bool
deriving DecidableEq

/-- `RpcRegistry.__methods` once initialized: the name → entry dict.  The
reflection-based initialization (`__ensure_initialized`, scanning decorated
methods of the owner and its parts) is runtime introspection outside the
shallow embedding; the registry claims concern the dict operations
`add_method` (302-307) and `get_entry` (313-315) on the initialized dict. -/
abbrev RpcRegistry (H : Type _) := List (String × RpcMethodEntry H)

/-- `RpcRegistry.add_method`: `self.__methods[name] = RpcMethodEntry(name,
func, param_type, cancelable)`. -/
def addMethod {H : Type _} (reg : RpcRegistry H) (name : String) (func : H)
    (paramType : Option RType) (cancelable : Bool) : RpcRegistry H :=
  assocPut name ⟨name, func, paramType, cancelable⟩ reg

/-- `RpcRegistry.get_entry`: `self.__methods.get(name, None)`. -/
def getEntry {H : Type _} (reg : RpcRegistry H) (name : String) :
    Option (RpcMethodEntry H) :=
  assocGet name reg

/-- State of one `JsonRPCProtocol` connection (428-434 plus the transport
fields of `JsonRPCProtocolBase`).  `outgoing` records the messages handed to
`transport.write`; `writeTransport` and `loopAttached` model
`self.write_transport is not None` and `bool(self._loop)` (`connection_lost`
clears only the loop). -/
structure ProtoState where
  sendedRequestCount : Nat
  sendedRequest : List (RpcId × SendedRequestEntry)
  receivedRequest : List (RpcId × ReceivedRequestEntry)
  writeTransport : Bool
  loopAttached : Bool
  outgoing : List JsonRpcMsg
deriving DecidableEq, Repr

/-- `JsonRPCProtocol.send_message` (522-538): the message is serialized and
written only when a write transport is attached and the loop is set;
otherwise it is silently dropped — no exception either way. -/
def sendMessage (st : ProtoState) (m : JsonRpcMsg) : ProtoState :=
  if st.writeTransport && st.loopAttached then
    { st with outgoing := st.outgoing ++ [m] }
  else st

/-- `send_response` (499-501). -/
def sendResponse (st : ProtoState) (id : RpcId) (result : Option JVal) : ProtoState :=
  sendMessage st (.response id result)

/-- `send_error` (503-520); attaching `data` only when it is not `None`
coincides with passing the option through.  Python callers that omit `id`
pass `None`, modeled as `RpcId.null`. -/
def sendError (st : ProtoState) (code : Int) (message : Option String)
    (id : RpcId) (data : Option JVal) : ProtoState :=
  sendMessage st (.errorResp id code message data)

/-- `JsonRPCProtocol.send_request` (540-558): increment the per-connection
counter, use it as the id, store a `SendedRequestEntry` with a fresh pending
future and the declared result type, then encode and write the request.
Returns the allocated id alongside the new state. -/
def sendRequest (st : ProtoState) (method : String) (params : Option JVal)
    (resultType : Option RType) : ProtoState × Nat :=
  let cnt := st.sendedRequestCount + 1
  let st₁ := { st with
    sendedRequestCount := cnt,
    sendedRequest :=
      assocPut (RpcId.num cnt) ⟨freshFut, resultType⟩ st.sendedRequest }
  (sendMessage st₁ (.request (RpcId.num cnt) method params), cnt)

/-- `send_notification` (569-571). -/
def sendNotification (st : ProtoState) (method : String) (params : Option JVal) :
    ProtoState :=
  sendMessage st (.notification method params)

/-- What `handle_response` did to the popped entry pending future. -/
inductive RespAct where
  | resolvedOk (v : Option JVal)
  | rejected (e : String)
  | alreadyDone
  | reportedError
deriving DecidableEq, Repr

/-- `JsonRPCProtocol.handle_response` (573-615).  A null id or an id absent
from the sent-request table reports Internal Error locally (the log text
interpolating the id is elided) and leaves the table unchanged; otherwise
the entry is popped and its future resolved: `None` results resolve to
`None` without conversion, other results go through
`from_dict(result, entry.result_type)`, and a conversion failure rejects the
future with the exception.  The cross-loop handoff
(`call_soon_threadsafe`) delivers the same resolution on the owning loop and
is modeled as the direct one. -/
def handleResponse (st : ProtoState) (id : RpcId) (result : Option JVal) :
    ProtoState × RespAct :=
  if id = RpcId.null then
    (sendError st JsonRPCErrors.INTERNAL_ERROR
      (some "Invalid response. Response id is null.") RpcId.null none, .reportedError)
  else
    match assocGet id st.sendedRequest with
    | none =>
      (sendError st JsonRPCErrors.INTERNAL_ERROR
        (some "Invalid response. Could not find id in request list.") RpcId.null none,
       .reportedError)
    | some entry =>
      let st₁ := { st with sendedRequest := assocDel id st.sendedRequest }
      if entry.fut.done then (st₁, .alreadyDone)
      else
        match result with
        | none => (st₁, .resolvedOk none)
        | some r =>
          match fromDictModel entry.resultType r with
          | .ok v => (st₁, .resolvedOk (some v))
          | .error e => (st₁, .rejected e)

/-- The effect of `handle_error`. -/
inductive ErrAct where
  | raisedException (code : Int) (message : Option String) (data : Option JVal)
deriving DecidableEq, Repr

/-- `JsonRPCProtocol.handle_error` (617-619): raise `JsonRPCErrorException`
built from the error object — and nothing else: no table access, no future
resolution.  The exception propagates into the per-message task, whose done
callback in `_handle_messages` discards it. -/
def handleError (st : ProtoState) (id : RpcId) (code : Int)
    (message : Option String) (data : Option JVal) : ProtoState × ErrAct :=
  (st, .raisedException code message data)

/-- `JsonRPCProtocol.cancel_request` (723-730): look the id up; when an entry
exists and its future is not already cancelled, call `future.cancel()`.  The
`cancelable` flag is not consulted, and no message is ever sent. -/
def cancelRequest (st : ProtoState) (id : RpcId) : ProtoState :=
  match assocGet id st.receivedRequest with
  | none => st
  | some e =>
    if e.fut.cancelled then st
    else
      { st with receivedRequest :=
          assocPut id { e with fut := e.fut.cancel } st.receivedRequest }

/-- `JsonRPCProtocol.cancel_all_received_request` (732-736): request
cancellation of every entry that is cancelable and not yet cancelled. -/
def cancelAllReceived (st : ProtoState) : ProtoState :=
  { st with receivedRequest :=
      st.receivedRequest.map (fun p =>
        (p.1,
         if p.2.cancelable && !p.2.fut.cancelled then
           { p.2 with fut := p.2.fut.cancel }
         else p.2)) }

/-- The terminal outcome of a handler task, as observed by `t.result()` in
the done callback. -/
inductive HOutcome where
  | ok (v : Option JVal)
  | rpcError (code : Int) (message : Option String) (data : Option JVal)
  | exn (desc : String)
  | cancelledOutcome
deriving DecidableEq, Repr

/-- The done callback of `handle_request` (702-719): `t.result()` yields the
result (send a Response), or raises `CancelledError` (send Error -32800
"Request canceled."), a `JsonRPCErrorException` (send its code/message/data,
falling back to the f-string description when the message is `None` or
empty — the `str(e)` part of that description is elided), or any other
exception (send Error -32603 with its description); the `finally` block
always pops the `ReceivedRequestEntry`. -/
def requestDone (st : ProtoState) (id : RpcId) (outcome : HOutcome) : ProtoState :=
  let st₁ :=
    match outcome with
    | .ok v => sendResponse st id v
    | .cancelledOutcome =>
      sendError st JsonRPCErrors.REQUEST_CANCELLED (some "Request canceled.") id none
    | .rpcError code msg data =>
      sendError st code
        (match msg with
         | some s => if s.isEmpty then some "JsonRPCErrorException" else some s
         | none => some "JsonRPCErrorException") id data
    | .exn desc => sendError st JsonRPCErrors.INTERNAL_ERROR (some desc) id none
  { st₁ with receivedRequest := assocDel id st₁.receivedRequest }

/-- `JsonRPCProtocol.handle_request` (677-721): look up the method entry;
unknown → Error -32601 keyed to the request id, nothing stored.  Known →
start the handler task, store a `ReceivedRequestEntry` holding the task, the
message and the entry cancelable flag, and run the done callback once the
task reaches its terminal state.  Parameter mapping (`_convert_params`,
driven by `inspect.signature` introspection) and the handler itself are
abstracted into the outcome function `run`; the `await` making this
synchronous in the model fixes one interleaving of the independent tasks. -/
def handleRequest {H : Type _} (reg : RpcRegistry H)
    (run : H → Option JVal → HOutcome) (st : ProtoState) (id : RpcId)
    (method : String) (params : Option JVal) : ProtoState :=
  match getEntry reg method with
  | none =>
    sendError st JsonRPCErrors.METHOD_NOT_FOUND
      (some ("Unknown method: " ++ method)) id none
  | some e =>
    let entry : ReceivedRequestEntry :=
      ⟨freshFut, some (.request id method params), e.cancelable⟩
    let st₁ :=
      { st with receivedRequest := assocPut id entry st.receivedRequest }
    requestDone st₁ id (run e.method params)

/-- `handle_notification` (738-762): unknown methods are only logged; known
handlers run with every exception swallowed — nothing is ever sent and no
entry is stored. -/
def handleNotification {H : Type _} (reg : RpcRegistry H)
    (run : H → Option JVal → HOutcome) (st : ProtoState) (method : String)
    (params : Option JVal) : ProtoState :=
  match getEntry reg method with
  | none => st
  | some e =>
    let _ := run e.method params
    st

/-- `handle_message` (489-497), dispatching on the runtime message kind. -/
def handleMessage {H : Type _} (reg : RpcRegistry H)
    (run : H → Option JVal → HOutcome) (st : ProtoState) :
    JsonRpcMsg → ProtoState
  | .request id method params => handleRequest reg run st id method params
  | .notification method params => handleNotification reg run st method params
  | .response id result => (handleResponse st id result).1
  | .errorResp id code message data => (handleError st id code message data).1

/-- `_handle_messages` (477-486): each decoded message becomes its own task;
the model runs them in order of arrival. -/
def handleMessages {H : Type _} (reg : RpcRegistry H)
    (run : H → Option JVal → HOutcome) (st : ProtoState)
    (ms : List JsonRpcMsg) : ProtoState :=
  ms.foldl (handleMessage reg run) st

/-! ### Decoding a body (`_handle_body`, 464-475, and
`_generate_json_rpc_messages_from_dict`, 436-462) -/

abbrev JObj := List (String × JVal)

inductive DecodeErr where
  | invalidVersion
  | invalidMessage
  | badShape
deriving DecidableEq, Repr

/-- Modelled from the spec: decode of an `id` value for the declared
`Union[int, str, None]`. -/
def decodeId : JVal → Option RpcId
  | .numV n => some (.num n)
  | .strV s => some (.str s)
  | .nullV => some .null
  | _ => none

/-- Modelled from the spec (4.2): union discrimination of `from_dict` over
(Request, Response, Notification, Error) — `method` without `result` or
`error` gives Request when an `id` key is present and Notification
otherwise; a `result` key gives Response; an `error` key gives Error; no
discriminator at all is a protocol error (`utils/dataclasses.from_dict` is
not among the sources).  A JSON `null` result is Python `None`. -/
def fromDictUnion (d : JObj) : Except DecodeErr JsonRpcMsg :=
  match assocGet "method" d, assocGet "result" d, assocGet "error" d with
  | some (JVal.strV m), none, none =>
    match assocGet "id" d with
    | some idv =>
      match decodeId idv with
      | some id => .ok (.request id m (assocGet "params" d))
      | none => .error .badShape
    | none => .ok (.notification m (assocGet "params" d))
  | some _, none, none => .error .badShape
  | _, some r, _ =>
    match assocGet "id" d with
    | some idv =>
      match decodeId idv with
      | some id => .ok (.response id (match r with | .nullV => none | v => some v))
      | none => .error .badShape
    | none => .error .badShape
  | _, _, some (JVal.objV eo) =>
    match assocGet "id" d, assocGet "code" eo with
    | some idv, some (JAtom.numA code) =>
      match decodeId idv with
      | some id =>
        .ok (.errorResp id code
          (match assocGet "message" eo with
           | some (JAtom.strA s) => some s
           | _ => none)
          ((assocGet "data" eo).map atomToVal))
      | none => .error .badShape
    | _, _ => .error .badShape
  | _, _, some _ => .error .badShape
  | _, _, _ => .error .invalidMessage

/-- `inner` of `_generate_json_rpc_messages_from_dict` (440-456): require a
`jsonrpc` key, raise `InvalidProtocolVersionError` when it differs from the
literal "2.0", otherwise pop the key and decode the union. -/
def innerDecode (d : JObj) : Except DecodeErr JsonRpcMsg :=
  match assocGet "jsonrpc" d with
  | none => .error .invalidMessage
  | some v =>
    if v = JVal.strV "2.0" then fromDictUnion (assocDel "jsonrpc" d)
    else .error .invalidVersion

/-- The decode generator as consumed by the `for` loop of
`_handle_messages`: messages decoded before the first failure are yielded
(and were already dispatched as tasks); the failure aborts the iteration and
drops the remainder. -/
def genMessages : List JObj → List JsonRpcMsg × Option DecodeErr
  | [] => ([], none)
  | d :: rest =>
    match innerDecode d with
    | .error e => ([], some e)
    | .ok m =>
      let (ms, err) := genMessages rest
      (m :: ms, err)

/-- A parsed `json.loads` value: one object or a batch. -/
inductive JsonData where
  | single (d : JObj)
  | batch (l : List JObj)
deriving DecidableEq, Repr

/-- The `f"TypeName: message"` text sent with the parse error. -/
def errText : DecodeErr → String
  | .invalidVersion => "InvalidProtocolVersionError: Invalid JSON-RPC2 protocol version."
  | .invalidMessage => "JsonRPCException: Invalid JSON-RPC2 Message"
  | .badShape => "TypeError: invalid JSON-RPC2 message shape"

/-- `_handle_body` (464-475) after `json.loads`: dispatch the decoded
messages; any decode failure is caught and reported as Error(-32700) with no
id, after which the call returns normally (the connection stays open). -/
def handleBody {H : Type _} (reg : RpcRegistry H)
    (run : H → Option JVal → HOutcome) (st : ProtoState) (data : JsonData) :
    ProtoState :=
  let ds := match data with | .single d => [d] | .batch l => l
  let p := genMessages ds
  let st₁ := handleMessages reg run st p.1
  match p.2 with
  | none => st₁
  | some e => sendError st₁ JsonRPCErrors.PARSE_ERROR (some (errText e)) RpcId.null none


/-! ### Concrete fixtures for counterexamples and witnesses -/

def baseState : ProtoState :=
  { sendedRequestCount := 0, sendedRequest := [], receivedRequest := [],
    writeTransport := true, loopAttached := true, outgoing := [] }

/-- A connection with one outstanding sent request (id 1). -/
def oneSentState : ProtoState :=
  { baseState with
    sendedRequestCount := 1,
    sendedRequest := [(RpcId.num 1, ⟨freshFut, none⟩)] }

/-- A connection with one running, non-cancelable received request (id 1). -/
def oneRecvState : ProtoState :=
  { baseState with
    receivedRequest := [(RpcId.num 1, ⟨freshFut, none, false⟩)] }

/-- A connection whose write transport was never attached. -/
def detachedState : ProtoState :=
  { baseState with writeTransport := false }

def pingReg : RpcRegistry Nat := [("ping", ⟨"ping", 0, none, true⟩)]

def pingRun : Nat → Option JVal → HOutcome := fun _ _ => .ok (some (JVal.strV "pong"))

def badVersionObj : JObj :=
  [("jsonrpc", JVal.strV "1.0"), ("id", JVal.numV 1), ("method", JVal.strV "ping")]

def goodPingObj : JObj :=
  [("jsonrpc", JVal.strV "2.0"), ("id", JVal.numV 2), ("method", JVal.strV "ping")]

def smallBody : List Nat := [97, 98, 99]


/-- The ids `send_request` has allocated so far are exactly the integers
`1 .. sendedRequestCount`; this predicate says an id is one of them. -/
def sentIdOk (count : Nat) : RpcId → Bool
  | .num k => 0 < k && k ≤ (count : Int)
  | _ => false

/-- Invariant of the sent-request table: keys are pairwise distinct and every
key is an id the counter has already allocated. -/
def SentInv (st : ProtoState) : Prop :=
  (assocKeys st.sendedRequest).Nodup ∧
  ∀ i ∈ assocKeys st.sendedRequest, sentIdOk st.sendedRequestCount i = true

/-! ### Framer lemmas -/

theorem dropLit_self (l t : List Nat) : dropLit l (l ++ t) = some t := by
  induction l with
  | nil => rfl
  | cons b bs ih => simpa [dropLit] using ih

theorem dropLit_mem (l : List Nat) :
    ∀ s r, dropLit l s = some r → ∀ x ∈ r, x ∈ s := by
  induction l with
  | nil =>
    intro s r h x hx
    simp only [dropLit, Option.some.injEq] at h
    exact h ▸ hx
  | cons b bs ih =>
    intro s r h x hx
    cases s with
    | nil => simp [dropLit] at h
    | cons c cs =>
      simp only [dropLit] at h
      by_cases hc : c = b
      · rw [if_pos hc] at h
        exact List.mem_cons_of_mem _ (ih cs r h x hx)
      · rw [if_neg hc] at h
        cases h

theorem dropLit_crlf (s r : List Nat) (h : dropLit [13, 10] s = some r) :
    s = 13 :: 10 :: r := by
  match s with
  | [] => simp [dropLit] at h
  | [13] => simp [dropLit] at h
  | 13 :: 10 :: t => simp_all [dropLit]
  | b :: t =>
    by_cases hb : b = 13
    · subst hb
      match t with
      | [] => simp [dropLit] at h
      | c :: u =>
        by_cases hc : c = 10
        · subst hc; simp_all [dropLit]
        · simp [dropLit, hc] at h
    · simp [dropLit, hb] at h

theorem dropWhileB_mem (p : Nat → Bool) :
    ∀ s, ∀ x ∈ dropWhileB p s, x ∈ s := by
  intro s
  induction s with
  | nil => simp [dropWhileB]
  | cons b rest ih =>
    intro x hx
    by_cases hb : p b
    · simp only [dropWhileB, if_pos hb] at hx
      exact List.mem_cons_of_mem _ (ih x hx)
    · simp only [dropWhileB, if_neg hb] at hx
      exact hx

theorem optSpace_mem (s : List Nat) : ∀ x ∈ optSpace s, x ∈ s := by
  intro x hx
  cases s with
  | nil => simp [optSpace] at hx
  | cons b rest =>
    by_cases hb : b = 32
    · rw [optSpace, if_pos hb] at hx
      exact List.mem_cons_of_mem _ hx
    · rwa [optSpace, if_neg hb] at hx

theorem takeWhileB_all_stop (p : Nat → Bool) (R : List Nat) (b : Nat) (t : List Nat)
    (hR : ∀ x ∈ R, p x = true) (hb : p b = false) :
    takeWhileB p (R ++ b :: t) = R := by
  induction R with
  | nil => simp [takeWhileB, hb]
  | cons a R ih =>
    have ha := hR a (by simp)
    simp only [List.cons_append, takeWhileB, if_pos ha]
    exact congrArg (List.cons a) (ih (fun x hx => hR x (List.mem_cons_of_mem _ hx)))

theorem dropWhileB_all_stop (p : Nat → Bool) (R : List Nat) (b : Nat) (t : List Nat)
    (hR : ∀ x ∈ R, p x = true) (hb : p b = false) :
    dropWhileB p (R ++ b :: t) = b :: t := by
  induction R with
  | nil => simp [dropWhileB, hb]
  | cons a R ih =>
    have ha := hR a (by simp)
    simp only [List.cons_append, dropWhileB, if_pos ha]
    exact ih (fun x hx => hR x (List.mem_cons_of_mem _ hx))

theorem lineStep_mem (s r : List Nat) (h : lineStep s = some r) :
    13 ∈ s ∧ 10 ∈ s := by
  induction s with
  | nil => simp [lineStep] at h
  | cons b rest ih =>
    by_cases hb : b = 13
    · subst hb
      simp only [lineStep, if_pos rfl] at h
      match rest, h with
      | 10 :: u, _ => exact ⟨by simp, by simp⟩
    · by_cases hb' : b = 10
      · subst hb'; simp [lineStep] at h
      · simp only [lineStep, if_neg hb, if_neg hb'] at h
        obtain ⟨h13, h10⟩ := ih h
        exact ⟨List.mem_cons_of_mem _ h13, List.mem_cons_of_mem _ h10⟩

theorem parseContentLength_mem (s : List Nat) (x : Nat × List Nat)
    (h : parseContentLength s = some x) : 13 ∈ s ∧ 10 ∈ s := by
  simp only [parseContentLength] at h
  split at h
  · cases h
  · rename_i s₁ hd
    split at h
    · cases h
    · split at h
      · cases h
      · rename_i s₄ hd2
        have hshape := dropLit_crlf _ _ hd2
        have h13 : (13 : Nat) ∈ dropWhileB isDigitB (optSpace s₁) := by rw [hshape]; simp
        have h10 : (10 : Nat) ∈ dropWhileB isDigitB (optSpace s₁) := by rw [hshape]; simp
        have hm13 : (13 : Nat) ∈ s₁ := optSpace_mem _ _ (dropWhileB_mem _ _ _ h13)
        have hm10 : (10 : Nat) ∈ s₁ := optSpace_mem _ _ (dropWhileB_mem _ _ _ h10)
        exact ⟨dropLit_mem _ _ _ hd _ hm13, dropLit_mem _ _ _ hd _ hm10⟩

theorem matchAfter_none_of_not_mem (s : List Nat) (h : 13 ∉ s ∨ 10 ∉ s) :
    matchAfter s = none := by
  simp only [matchAfter]
  rcases hp : parseContentLength s with _ | x
  · rfl
  · obtain ⟨h13, h10⟩ := parseContentLength_mem s x hp
    rcases h with h | h
    · exact absurd h13 h
    · exact absurd h10 h

theorem messageMatchFuel_none_of_not_mem (f : Nat) (s : List Nat) (h : 13 ∉ s ∨ 10 ∉ s) :
    messageMatchFuel f s = none := by
  cases f with
  | zero => exact matchAfter_none_of_not_mem s h
  | succ f =>
    simp only [messageMatchFuel]
    rcases hl : lineStep s with _ | r
    · exact matchAfter_none_of_not_mem s h
    · obtain ⟨h13, h10⟩ := lineStep_mem s r hl
      rcases h with h | h
      · exact absurd h13 h
      · exact absurd h10 h

/-! Digit bytes of the frame length. -/

theorem natDigitsAux_digit (fuel n : Nat) :
    ∀ d ∈ natDigitsAux fuel n, isDigitB d = true := by
  induction fuel generalizing n with
  | zero =>
    intro d hd
    simp only [natDigitsAux, List.mem_singleton] at hd
    subst hd
    have : n % 10 < 10 := Nat.mod_lt _ (by omega)
    simp only [isDigitB, Bool.and_eq_true, decide_eq_true_eq]
    omega
  | succ fuel ih =>
    intro d hd
    simp only [natDigitsAux] at hd
    by_cases hn : n < 10
    · rw [if_pos hn] at hd
      simp only [List.mem_singleton] at hd
      subst hd
      simp only [isDigitB, Bool.and_eq_true, decide_eq_true_eq]
      omega
    · rw [if_neg hn] at hd
      rcases List.mem_append.1 hd with hd | hd
      · exact ih _ _ hd
      · simp only [List.mem_singleton] at hd
        subst hd
        have : n % 10 < 10 := Nat.mod_lt _ (by omega)
        simp only [isDigitB, Bool.and_eq_true, decide_eq_true_eq]
        omega

theorem natDigitsB_digit (n : Nat) : ∀ d ∈ natDigitsB n, isDigitB d = true :=
  natDigitsAux_digit n n

theorem natDigitsAux_ne_nil (fuel n : Nat) : natDigitsAux fuel n ≠ [] := by
  cases fuel with
  | zero => simp [natDigitsAux]
  | succ fuel =>
    simp only [natDigitsAux]
    by_cases hn : n < 10
    · simp [hn]
    · simp [hn]

theorem decNat_append_one (ds : List Nat) (d : Nat) :
    decNat (ds ++ [d]) = decNat ds * 10 + (d - 48) := by
  simp [decNat, List.foldl_append]

theorem decNat_natDigitsAux (fuel n : Nat) (h : n ≤ fuel) :
    decNat (natDigitsAux fuel n) = n := by
  induction fuel generalizing n with
  | zero =>
    have : n = 0 := by omega
    subst this
    decide
  | succ fuel ih =>
    simp only [natDigitsAux]
    by_cases hn : n < 10
    · rw [if_pos hn]
      simp only [decNat, List.foldl]
      omega
    · rw [if_neg hn]
      rw [decNat_append_one, ih (n / 10) (by omega)]
      have h48 : 48 + n % 10 - 48 = n % 10 := by omega
      rw [h48]
      omega

theorem decNat_natDigitsB (n : Nat) : decNat (natDigitsB n) = n :=
  decNat_natDigitsAux n n le_rfl

theorem isDigit_notCRLF (d : Nat) (h : isDigitB d = true) : notCRLF d = true := by
  simp only [isDigitB, Bool.and_eq_true, decide_eq_true_eq] at h
  simp only [notCRLF, Bool.and_eq_true, Bool.not_eq_true', decide_eq_false_iff_not]
  omega

/-- The bytes before the first CR of a canonical frame header
(`"Content-Length: "` plus the decimal digits) are CR/LF-free. -/
theorem headRun_notCRLF (n : Nat) :
    ∀ x ∈ clLit ++ [32] ++ natDigitsB n, notCRLF x = true := by
  intro x hx
  rcases List.mem_append.1 hx with hx | hx
  · rcases List.mem_append.1 hx with hx | hx
    · fin_cases hx <;> decide
    · simp only [List.mem_singleton] at hx
      subst hx
      decide
  · exact isDigit_notCRLF x (natDigitsB_digit n x hx)

theorem notCRLF_split (a : Nat) (h : notCRLF a = true) : a ≠ 13 ∧ a ≠ 10 := by
  simp only [notCRLF, Bool.and_eq_true, Bool.not_eq_true', decide_eq_false_iff_not] at h
  exact h

theorem lineStep_run_crlf (R : List Nat) (hR : ∀ x ∈ R, notCRLF x = true) (t : List Nat) :
    lineStep (R ++ 13 :: 10 :: t) = some t := by
  induction R with
  | nil => rfl
  | cons a R ih =>
    obtain ⟨ha13, ha10⟩ := notCRLF_split a (hR a (by simp))
    simp only [List.cons_append, lineStep, if_neg ha13, if_neg ha10]
    exact ih (fun x hx => hR x (List.mem_cons_of_mem _ hx))

theorem lineStep_run_end (R : List Nat) (hR : ∀ x ∈ R, notCRLF x = true) :
    lineStep R = none := by
  induction R with
  | nil => rfl
  | cons a R ih =>
    obtain ⟨ha13, ha10⟩ := notCRLF_split a (hR a (by simp))
    simp only [lineStep, if_neg ha13, if_neg ha10]
    exact ih (fun x hx => hR x (List.mem_cons_of_mem _ hx))

theorem lineStep_run_cr (R : List Nat) (hR : ∀ x ∈ R, notCRLF x = true) :
    lineStep (R ++ [13]) = none := by
  induction R with
  | nil => rfl
  | cons a R ih =>
    obtain ⟨ha13, ha10⟩ := notCRLF_split a (hR a (by simp))
    simp only [List.cons_append, lineStep, if_neg ha13, if_neg ha10]
    exact ih (fun x hx => hR x (List.mem_cons_of_mem _ hx))

theorem natDigitsB_isEmpty (n : Nat) : (natDigitsB n).isEmpty = false := by
  cases h : natDigitsB n with
  | nil => exact absurd h (natDigitsAux_ne_nil _ _)
  | cons a l => rfl

theorem parseContentLength_header (n : Nat) (t : List Nat) :
    parseContentLength (clLit ++ [32] ++ natDigitsB n ++ 13 :: 10 :: t) = some (n, t) := by
  have hassoc : clLit ++ [32] ++ natDigitsB n ++ 13 :: 10 :: t =
      clLit ++ ([32] ++ (natDigitsB n ++ 13 :: 10 :: t)) := by
    simp [List.append_assoc]
  rw [parseContentLength, hassoc, dropLit_self]
  have hopt : optSpace ([32] ++ (natDigitsB n ++ 13 :: 10 :: t)) =
      natDigitsB n ++ 13 :: 10 :: t := by
    simp [optSpace]
  simp only [hopt]
  rw [takeWhileB_all_stop isDigitB (natDigitsB n) 13 (10 :: t) (natDigitsB_digit n) (by decide),
      dropWhileB_all_stop isDigitB (natDigitsB n) 13 (10 :: t) (natDigitsB_digit n) (by decide)]
  simp [natDigitsB_isEmpty, dropLit, decNat_natDigitsB]

theorem parseContentType_cr (t : List Nat) : parseContentType (13 :: t) = none := by
  simp [parseContentType, ctLit, dropLit]

theorem parseOtherLine_cr (t : List Nat) : parseOtherLine (13 :: t) = none := by
  simp [parseOtherLine, takeWhileB, dropWhileB, notCRLF]

theorem parseHeadersAux_cr (fuel : Nat) (cs : Option (List Nat)) (t : List Nat) :
    parseHeadersAux fuel cs (13 :: t) = (cs, 13 :: t) := by
  cases fuel with
  | zero => rfl
  | succ fuel => simp [parseHeadersAux, parseContentType_cr, parseOtherLine_cr]

theorem parseHeadersAux_nil (fuel : Nat) (cs : Option (List Nat)) :
    parseHeadersAux fuel cs [] = (cs, []) := by
  cases fuel with
  | zero => rfl
  | succ fuel => simp [parseHeadersAux, parseContentType, parseOtherLine, ctLit, dropLit, takeWhileB]

theorem matchAfter_full (n : Nat) (B : List Nat) :
    matchAfter (clLit ++ [32] ++ natDigitsB n ++ 13 :: 10 :: (13 :: 10 :: B)) =
      some ⟨n, none, B⟩ := by
  rw [matchAfter, parseContentLength_header n (13 :: 10 :: B)]
  simp [parseHeadersAux_cr, dropLit]

theorem matchAfter_hdr_end (n : Nat) :
    matchAfter (clLit ++ [32] ++ natDigitsB n ++ 13 :: 10 :: ([] : List Nat)) = none := by
  rw [matchAfter, parseContentLength_header n []]
  simp [parseHeadersAux_nil, dropLit]

theorem matchAfter_hdr_cr (n : Nat) :
    matchAfter (clLit ++ [32] ++ natDigitsB n ++ 13 :: 10 :: [13]) = none := by
  rw [matchAfter, parseContentLength_header n [13]]
  simp [parseHeadersAux_cr, dropLit]

theorem matchAfter_cr (t : List Nat) : matchAfter (13 :: t) = none := by
  simp [matchAfter, parseContentLength, clLit, dropLit]

theorem messageMatch_of_fuel (p : List Nat) (hne : p ≠ []) (X : Option MatchRes)
    (h : ∀ f, messageMatchFuel (f + 1) p = X) : messageMatch p = X := by
  obtain ⟨g, hg⟩ :=
    Nat.exists_eq_succ_of_ne_zero (fun h0 => hne (List.length_eq_zero.1 h0))
  rw [messageMatch, hg]
  exact h g

theorem messageMatchFuel_cr10 (f : Nat) (B : List Nat) (h13 : 13 ∉ B) :
    messageMatchFuel f (13 :: 10 :: B) = none := by
  cases f with
  | zero => exact matchAfter_cr _
  | succ f =>
    have hline : lineStep (13 :: 10 :: B) = some B := by simp [lineStep]
    simp only [messageMatchFuel, hline,
      messageMatchFuel_none_of_not_mem f B (Or.inl h13), matchAfter_cr]

theorem messageMatch_header_body (n : Nat) (B : List Nat) (h13 : 13 ∉ B) :
    messageMatch (clLit ++ [32] ++ natDigitsB n ++ 13 :: 10 :: (13 :: 10 :: B)) =
      some ⟨n, none, B⟩ := by
  apply messageMatch_of_fuel
  · simp [clLit]
  · intro f
    simp only [messageMatchFuel,
      lineStep_run_crlf (clLit ++ [32] ++ natDigitsB n) (headRun_notCRLF n) (13 :: 10 :: B),
      messageMatchFuel_cr10 f B h13]
    exact matchAfter_full n B

theorem messageMatch_hdr_end (n : Nat) :
    messageMatch (clLit ++ [32] ++ natDigitsB n ++ 13 :: 10 :: ([] : List Nat)) = none := by
  apply messageMatch_of_fuel
  · simp [clLit]
  · intro f
    simp only [messageMatchFuel,
      lineStep_run_crlf (clLit ++ [32] ++ natDigitsB n) (headRun_notCRLF n) ([] : List Nat),
      messageMatchFuel_none_of_not_mem f ([] : List Nat) (Or.inl (by simp)),
      matchAfter_hdr_end n]

theorem messageMatch_hdr_cr (n : Nat) :
    messageMatch (clLit ++ [32] ++ natDigitsB n ++ 13 :: 10 :: [13]) = none := by
  apply messageMatch_of_fuel
  · simp [clLit]
  · intro f
    simp only [messageMatchFuel,
      lineStep_run_crlf (clLit ++ [32] ++ natDigitsB n) (headRun_notCRLF n) [13],
      messageMatchFuel_none_of_not_mem f [13] (Or.inr (by decide)),
      matchAfter_hdr_cr n]

theorem messageMatch_of_run (p a : List Nat) (n : Nat)
    (hp : p ++ a = clLit ++ [32] ++ natDigitsB n) : messageMatch p = none := by
  have h10 : 10 ∉ p := by
    intro hmem
    have hx : (10 : Nat) ∈ clLit ++ [32] ++ natDigitsB n := by
      rw [← hp]; exact List.mem_append_left _ hmem
    obtain ⟨-, h⟩ := notCRLF_split 10 (headRun_notCRLF n 10 hx)
    exact h rfl
  exact messageMatchFuel_none_of_not_mem _ _ (Or.inr h10)

/-- Any proper prefix of a canonical frame whose body is CR-free makes the
framer buffer and wait rather than emit. -/
theorem noEmit_of_proper (body p q : List Nat) (h13 : 13 ∉ body)
    (happ : p ++ q = mkFrame body) (hq : q ≠ []) : noEmit p := by
  have hframe : mkFrame body =
      clLit ++ [32] ++ natDigitsB body.length ++ 13 :: 10 :: 13 :: 10 :: body := by
    simp [mkFrame, clHeaderBytes, List.append_assoc]
  rw [hframe] at happ
  rcases List.append_eq_append_iff.1 happ with ⟨a, hR, _⟩ | ⟨c, hp, hc⟩
  · exact Or.inl (messageMatch_of_run p a body.length hR.symm)
  · subst hp
    replace hc := hc.symm
    rcases c with _ | ⟨x1, c⟩
    · exact Or.inl (messageMatch_of_run _ [] body.length (by simp))
    · obtain ⟨hx1, hc1⟩ : x1 = 13 ∧ c ++ q = 10 :: 13 :: 10 :: body := by simpa using hc
      subst hx1
      rcases c with _ | ⟨x2, c⟩
      · refine Or.inl (messageMatchFuel_none_of_not_mem _ _ (Or.inr ?_))
        intro hmem
        rcases List.mem_append.1 hmem with hmem | hmem
        · obtain ⟨-, h⟩ := notCRLF_split 10 (headRun_notCRLF body.length 10 hmem)
          exact h rfl
        · simp at hmem
      · obtain ⟨hx2, hc2⟩ : x2 = 10 ∧ c ++ q = 13 :: 10 :: body := by simpa using hc1
        subst hx2
        rcases c with _ | ⟨x3, c⟩
        · exact Or.inl (by simpa using messageMatch_hdr_end body.length)
        · obtain ⟨hx3, hc3⟩ : x3 = 13 ∧ c ++ q = 10 :: body := by simpa using hc2
          subst hx3
          rcases c with _ | ⟨x4, c⟩
          · exact Or.inl (by simpa using messageMatch_hdr_cr body.length)
          · obtain ⟨hx4, hc4⟩ : x4 = 10 ∧ c ++ q = body := by simpa using hc3
            subst hx4
            have h13c : 13 ∉ c := fun hm => h13 (hc4 ▸ List.mem_append_left _ hm)
            refine Or.inr ⟨⟨body.length, none, c⟩, ?_, ?_⟩
            · exact messageMatch_header_body body.length c h13c
            · have hlen := congrArg List.length hc4
              simp only [List.length_append] at hlen
              have hqpos : 0 < q.length := List.length_pos.2 hq
              show c.length < body.length
              omega

theorem dataReceived_nil (st : FramerState) : dataReceived st [] = (st, []) := by
  rw [dataReceived]
  rfl

theorem dataReceived_noEmit (st : FramerState) (data : List Nat) (hne : data ≠ [])
    (h : noEmit (st.messageBuf ++ data)) :
    dataReceived st data = (⟨st.messageBuf ++ data⟩, []) := by
  rcases data with _ | ⟨d, ds⟩
  · exact absurd rfl hne
  · rw [dataReceived]
    rcases h with h | ⟨m, hm, hlt⟩
    · simp [dataLoop, h]
    · simp [dataLoop, hm, hlt]

theorem dataReceived_full (body : List Nat) (h13 : 13 ∉ body) (st : FramerState)
    (data : List Nat) (hne : data ≠ []) (h : st.messageBuf ++ data = mkFrame body) :
    dataReceived st data = (⟨[]⟩, [(body, defaultCharset)]) := by
  rcases data with _ | ⟨d, ds⟩
  · exact absurd rfl hne
  · rw [dataReceived]
    have hframe : mkFrame body =
        clLit ++ [32] ++ natDigitsB body.length ++ 13 :: 10 :: 13 :: 10 :: body := by
      simp [mkFrame, clHeaderBytes, List.append_assoc]
    have hmm : messageMatch (st.messageBuf ++ d :: ds) = some ⟨body.length, none, body⟩ := by
      rw [h, hframe]
      exact messageMatch_header_body body.length body h13
    simp only [dataLoop, hmm]
    rw [if_neg (by simp)]
    simp [dataLoop]

theorem feedChunks_empty (st : FramerState) (cs : List (List Nat))
    (h : cs.flatten = []) : feedChunks st cs = (st, []) := by
  induction cs generalizing st with
  | nil => rfl
  | cons c cs ih =>
    rw [List.flatten_cons] at h
    obtain ⟨hc, hcs⟩ := List.append_eq_nil.1 h
    subst hc
    simp [feedChunks, dataReceived_nil, ih st hcs]

theorem mkFrame_ne_nil (body : List Nat) : mkFrame body ≠ [] := by
  simp [mkFrame, clHeaderBytes, clLit]

theorem feedChunks_frame_aux (body : List Nat) (h13 : 13 ∉ body) :
    ∀ (cs : List (List Nat)) (p : List Nat), p ++ cs.flatten = mkFrame body →
      p ≠ mkFrame body →
      feedChunks ⟨p⟩ cs = (⟨[]⟩, [(body, defaultCharset)]) := by
  intro cs
  induction cs with
  | nil =>
    intro p hp hne
    simp only [List.flatten_nil, List.append_nil] at hp
    exact absurd hp hne
  | cons c cs ih =>
    intro p hp hne
    have hc2 : (p ++ c) ++ cs.flatten = mkFrame body := by
      simpa [List.flatten_cons, List.append_assoc] using hp
    by_cases hc : p ++ c = mkFrame body
    · have hcne : c ≠ [] := by
        intro h0
        subst h0
        rw [List.append_nil] at hc
        exact hne hc
      have hrest : cs.flatten = [] := by
        rw [hc] at hc2
        have hlen := congrArg List.length hc2
        simp only [List.length_append] at hlen
        exact List.length_eq_zero.1 (by omega)
      have h1 := dataReceived_full body h13 ⟨p⟩ c hcne hc
      have h2 := feedChunks_empty (⟨[]⟩ : FramerState) cs hrest
      simp [feedChunks, h1, h2]
    · have hflat_ne : cs.flatten ≠ [] := by
        intro h0
        rw [h0, List.append_nil] at hc2
        exact hc hc2
      have hnoemit : noEmit (p ++ c) :=
        noEmit_of_proper body (p ++ c) cs.flatten h13 hc2 hflat_ne
      by_cases hcnil : c = []
      · subst hcnil
        have h1 := dataReceived_nil (⟨p⟩ : FramerState)
        have h2 := ih p (by simpa using hc2) (by simpa using hc)
        simp [feedChunks, h1, h2]
      · have h1 := dataReceived_noEmit ⟨p⟩ c hcnil hnoemit
        have h2 := ih (p ++ c) hc2 hc
        simp [feedChunks, h1, h2]

/-! ### Association-list (Python dict) lemmas -/

theorem assocGet_put_hit {κ α : Type _} [DecidableEq κ] (k : κ) (v : α)
    (l : List (κ × α)) : assocGet k (assocPut k v l) = some v := by
  induction l with
  | nil => simp [assocPut, assocGet]
  | cons p rest ih =>
    obtain ⟨k₁, v₁⟩ := p
    by_cases h : k₁ = k
    · simp [assocPut, assocGet, h]
    · simp [assocPut, assocGet, h, ih]

theorem assocGet_put_miss {κ α : Type _} [DecidableEq κ] (k m : κ) (v : α)
    (l : List (κ × α)) (h : m ≠ k) :
    assocGet m (assocPut k v l) = assocGet m l := by
  have hkm : ¬k = m := fun he => h he.symm
  induction l with
  | nil => simp only [assocPut, assocGet, if_neg hkm]
  | cons p rest ih =>
    obtain ⟨k₁, v₁⟩ := p
    by_cases h₁ : k₁ = k
    · subst h₁
      simp only [assocPut, if_pos rfl, assocGet, if_neg hkm]
    · simp only [assocPut, if_neg h₁, assocGet]
      by_cases h₂ : k₁ = m
      · rw [if_pos h₂, if_pos h₂]
      · rw [if_neg h₂, if_neg h₂, ih]

theorem assocGet_none_iff {κ α : Type _} [DecidableEq κ] (k : κ) (l : List (κ × α)) :
    assocGet k l = none ↔ k ∉ assocKeys l := by
  induction l with
  | nil => simp [assocGet, assocKeys]
  | cons p rest ih =>
    obtain ⟨k₁, v₁⟩ := p
    simp only [assocGet, assocKeys, List.map_cons, List.mem_cons]
    by_cases h : k₁ = k
    · subst h
      simp
    · rw [if_neg h]
      rw [show (assocKeys rest = List.map Prod.fst rest) from rfl] at ih
      rw [ih]
      constructor
      · rintro hn (he | hm)
        · exact h he.symm
        · exact hn hm
      · intro hn hm
        exact hn (Or.inr hm)

theorem assocKeys_put_hit {κ α : Type _} [DecidableEq κ] (k : κ) (v w : α)
    (l : List (κ × α)) (h : assocGet k l = some w) :
    assocKeys (assocPut k v l) = assocKeys l := by
  induction l with
  | nil => simp [assocGet] at h
  | cons p rest ih =>
    obtain ⟨k₁, v₁⟩ := p
    simp only [assocGet] at h
    by_cases h₁ : k₁ = k
    · subst h₁
      simp [assocPut, assocKeys]
    · rw [if_neg h₁] at h
      simp only [assocPut, if_neg h₁, assocKeys, List.map_cons]
      have := ih h
      simp only [assocKeys] at this
      rw [this]

theorem assocKeys_put_fresh {κ α : Type _} [DecidableEq κ] (k : κ) (v : α)
    (l : List (κ × α)) (h : assocGet k l = none) :
    assocKeys (assocPut k v l) = assocKeys l ++ [k] := by
  induction l with
  | nil => simp [assocPut, assocKeys]
  | cons p rest ih =>
    obtain ⟨k₁, v₁⟩ := p
    simp only [assocGet] at h
    by_cases h₁ : k₁ = k
    · rw [if_pos h₁] at h
      cases h
    · rw [if_neg h₁] at h
      simp only [assocPut, if_neg h₁, assocKeys, List.map_cons, List.cons_append]
      have := ih h
      simp only [assocKeys] at this
      rw [this]

theorem assocPut_nodup {κ α : Type _} [DecidableEq κ] (k : κ) (v : α)
    (l : List (κ × α)) (h : (assocKeys l).Nodup) :
    (assocKeys (assocPut k v l)).Nodup := by
  cases hg : assocGet k l with
  | none =>
    rw [assocKeys_put_fresh k v l hg]
    have hk : k ∉ assocKeys l := (assocGet_none_iff k l).1 hg
    simpa [List.nodup_append] using ⟨h, hk⟩
  | some w =>
    rw [assocKeys_put_hit k v w l hg]
    exact h

theorem assocDel_sublist {κ α : Type _} [DecidableEq κ] (k : κ) (l : List (κ × α)) :
    List.Sublist (assocKeys (assocDel k l)) (assocKeys l) := by
  induction l with
  | nil => simp [assocDel, assocKeys]
  | cons p rest ih =>
    obtain ⟨k₁, v₁⟩ := p
    by_cases h : k₁ = k
    · simp only [assocDel, if_pos h, assocKeys, List.map_cons]
      exact List.sublist_cons_of_sublist _ (List.Sublist.refl _)
    · simp only [assocDel, if_neg h, assocKeys, List.map_cons]
      exact List.Sublist.cons₂ _ ih

theorem assocDel_nodup {κ α : Type _} [DecidableEq κ] (k : κ) (l : List (κ × α))
    (h : (assocKeys l).Nodup) : (assocKeys (assocDel k l)).Nodup :=
  List.Nodup.sublist (assocDel_sublist k l) h

theorem assocGet_del_ne {κ α : Type _} [DecidableEq κ] (k m : κ) (l : List (κ × α))
    (h : m ≠ k) : assocGet m (assocDel k l) = assocGet m l := by
  induction l with
  | nil => simp [assocDel]
  | cons p rest ih =>
    obtain ⟨k₁, v₁⟩ := p
    by_cases h₁ : k₁ = k
    · subst h₁
      simp only [assocDel, if_pos rfl]
      show assocGet m rest = if k₁ = m then some v₁ else assocGet m rest
      rw [if_neg (fun he : k₁ = m => h he.symm)]
    · simp only [assocDel, if_neg h₁, assocGet]
      by_cases h₂ : k₁ = m
      · rw [if_pos h₂, if_pos h₂]
      · rw [if_neg h₂, if_neg h₂, ih]

theorem assocDel_not_mem {κ α : Type _} [DecidableEq κ] (k : κ) (l : List (κ × α))
    (h : (assocKeys l).Nodup) : ∀ e : α, (k, e) ∉ assocDel k l := by
  induction l with
  | nil => simp [assocDel]
  | cons p rest ih =>
    obtain ⟨k₁, v₁⟩ := p
    simp only [assocKeys, List.map_cons, List.nodup_cons] at h
    intro e hmem
    by_cases h₁ : k₁ = k
    · subst h₁
      rw [assocDel, if_pos rfl] at hmem
      exact h.1 (by simpa [assocKeys] using List.mem_map_of_mem Prod.fst hmem)
    · rw [assocDel, if_neg h₁] at hmem
      rcases List.mem_cons.1 hmem with hmem | hmem
      · exact h₁ (congrArg Prod.fst hmem).symm
      · exact ih (by simpa [assocKeys] using h.2) e hmem

theorem assocDel_put_fresh {κ α : Type _} [DecidableEq κ] (k : κ) (v : α)
    (l : List (κ × α)) (h : assocGet k l = none) :
    assocDel k (assocPut k v l) = l := by
  induction l with
  | nil => simp [assocPut, assocDel]
  | cons p rest ih =>
    obtain ⟨k₁, v₁⟩ := p
    simp only [assocGet] at h
    by_cases h₁ : k₁ = k
    · rw [if_pos h₁] at h
      cases h
    · rw [if_neg h₁] at h
      simp only [assocPut, if_neg h₁, assocDel, ih h]

theorem assocPut_get_self {κ α : Type _} [DecidableEq κ] (k : κ) (v : α)
    (l : List (κ × α)) (h : assocGet k l = some v) : assocPut k v l = l := by
  induction l with
  | nil => simp [assocGet] at h
  | cons p rest ih =>
    obtain ⟨k₁, v₁⟩ := p
    simp only [assocGet] at h
    by_cases h₁ : k₁ = k
    · rw [if_pos h₁] at h
      injection h with h
      subst h₁
      simp [assocPut, h]
    · rw [if_neg h₁] at h
      simp only [assocPut, if_neg h₁, ih h]

theorem assocGet_map_vals {κ α : Type _} [DecidableEq κ] (g : α → α) (k : κ)
    (l : List (κ × α)) :
    assocGet k (l.map (fun p => (p.1, g p.2))) = (assocGet k l).map g := by
  induction l with
  | nil => simp [assocGet]
  | cons p rest ih =>
    obtain ⟨k₁, v₁⟩ := p
    simp only [List.map_cons, assocGet]
    by_cases h : k₁ = k
    · rw [if_pos h, if_pos h]
      rfl
    · rw [if_neg h, if_neg h, ih]

/-! ### Decode lemmas -/

theorem innerDecode_badVersion (d : JObj) (v : JVal)
    (hv : assocGet "jsonrpc" d = some v) (hne : v ≠ JVal.strV "2.0") :
    innerDecode d = .error .invalidVersion := by
  simp [innerDecode, hv, hne]

theorem genMessages_ok_append (goods : List JObj) (ms : List JsonRpcMsg)
    (bad : JObj) (rest : List JObj) (e : DecodeErr)
    (hgood : genMessages goods = (ms, none)) (hbad : innerDecode bad = .error e) :
    genMessages (goods ++ bad :: rest) = (ms, some e) := by
  induction goods generalizing ms with
  | nil =>
    simp only [genMessages, Prod.mk.injEq] at hgood
    rw [List.nil_append]
    simp [genMessages, hbad, ← hgood.1]
  | cons d goods ih =>
    rcases hd : innerDecode d with e₁ | m
    · simp only [genMessages, hd] at hgood
      simp at hgood
    · rcases hg : genMessages goods with ⟨ms₁, err₁⟩
      simp only [genMessages, hd, hg, Prod.mk.injEq] at hgood
      obtain ⟨hms, herr⟩ := hgood
      have hg₁ : genMessages goods = (ms₁, none) := by rw [hg, herr]
      have hih := ih ms₁ hg₁
      simp only [List.cons_append, genMessages, hd]
      show (m :: (genMessages (goods ++ bad :: rest)).1,
            (genMessages (goods ++ bad :: rest)).2) = (ms, some e)
      rw [hih, ← hms]

theorem handleBody_single_ok {H : Type _} (reg : RpcRegistry H)
    (run : H → Option JVal → HOutcome) (st : ProtoState) (d : JObj)
    (m : JsonRpcMsg) (hd : innerDecode d = .ok m) :
    handleBody reg run st (.single d) = handleMessages reg run st [m] := by
  simp [handleBody, genMessages, hd]

/-! ### Claim theorems -/

/-- **C2** (corrected: the code does not consult the `cancelable` flag in
`cancel_request`).  Counterexample: a running, non-cancelable received
request — the claim says cancelling it changes no state, but
`cancel_request` requests cancellation of its future. -/
theorem C2_counterexample :
    cancelRequest oneRecvState (RpcId.num 1) ≠ oneRecvState ∧
    (assocGet (RpcId.num 1) oneRecvState.receivedRequest).map (·.cancelable) =
      some false := by
  decide

/-- **C2** (amended): `cancel_request(id)` never sends anything and never
touches the sent-request table; it is a no-op on an unknown id, on an
already-cancelled future, and on an already-done future; on a not-yet-done
future it requests cancellation of the entry future regardless of the
`cancelable` flag.  Only `cancel_all_received_request` honors `cancelable`:
it cancels exactly the cancelable not-yet-cancelled entries. -/
theorem C2_cancel_request (st : ProtoState) (id : RpcId) :
    (cancelRequest st id).outgoing = st.outgoing ∧
    (cancelRequest st id).sendedRequest = st.sendedRequest ∧
    (assocGet id st.receivedRequest = none → cancelRequest st id = st) ∧
    (∀ e, assocGet id st.receivedRequest = some e → e.fut.cancelled = true →
      cancelRequest st id = st) ∧
    (∀ e, assocGet id st.receivedRequest = some e → e.fut.cancelled = false →
      e.fut.done = true → cancelRequest st id = st) ∧
    (∀ e, assocGet id st.receivedRequest = some e → e.fut.cancelled = false →
      e.fut.done = false →
      (cancelRequest st id).receivedRequest =
        assocPut id { e with fut := { e.fut with cancelRequested := true } }
          st.receivedRequest) ∧
    (∀ e, assocGet id st.receivedRequest = some e →
      assocGet id (cancelAllReceived st).receivedRequest =
        some (if e.cancelable && !e.fut.cancelled then
          { e with fut := e.fut.cancel } else e)) := by
  refine ⟨?_, ?_, ?_, ?_, ?_, ?_, ?_⟩
  · cases hg : assocGet id st.receivedRequest with
    | none => simp [cancelRequest, hg]
    | some e =>
      by_cases hc : e.fut.cancelled
      · simp [cancelRequest, hg, hc]
      · simp [cancelRequest, hg, hc]
  · cases hg : assocGet id st.receivedRequest with
    | none => simp [cancelRequest, hg]
    | some e =>
      by_cases hc : e.fut.cancelled
      · simp [cancelRequest, hg, hc]
      · simp [cancelRequest, hg, hc]
  · intro hg
    simp [cancelRequest, hg]
  · intro e hg hc
    simp [cancelRequest, hg, hc]
  · intro e hg hc hd
    have hfut : e.fut.cancel = e.fut := by simp [FutModel.cancel, hd]
    have hput : assocPut id { e with fut := e.fut.cancel } st.receivedRequest =
        st.receivedRequest := by
      rw [hfut]
      exact assocPut_get_self id e st.receivedRequest hg
    simp [cancelRequest, hg, hc, hput]
  · intro e hg hc hd
    have hfut : e.fut.cancel = { e.fut with cancelRequested := true } := by
      simp [FutModel.cancel, hd]
    simp [cancelRequest, hg, hc, hfut]
  · intro e hg
    have := assocGet_map_vals
      (fun en : ReceivedRequestEntry =>
        if en.cancelable && !en.fut.cancelled then { en with fut := en.fut.cancel }
        else en) id st.receivedRequest
    simp only [cancelAllReceived]
    rw [this, hg]
    rfl

/-- **C2** witness: cancelling the running non-cancelable request of
`oneRecvState` marks its future cancel-requested. -/
theorem C2_witness :
    assocGet (RpcId.num 1) oneRecvState.receivedRequest =
      some ⟨freshFut, none, false⟩ ∧
    (cancelRequest oneRecvState (RpcId.num 1)).receivedRequest =
      assocPut (RpcId.num 1) ⟨⟨false, false, true⟩, none, false⟩
        oneRecvState.receivedRequest := by
  refine ⟨by decide, ?_⟩
  exact (C2_cancel_request oneRecvState (RpcId.num 1)).2.2.2.2.2.1
    ⟨freshFut, none, false⟩ (by decide) (by decide) (by decide)

/-- **C7** (confirmed): when a received request reaches its terminal state,
the done callback drops its `ReceivedRequestEntry` (no entry outlives its
terminal state; other ids are untouched) and sends the message determined by
the outcome: a Response carrying the result on success, the declared
code/message/data for a `JsonRPCErrorException` (with the fallback
description when the message is empty), Error(-32603) with the description
for any other exception, and Error(-32800) on cancellation. -/
theorem C7_terminal_state_drops_entry (st : ProtoState) (id : RpcId)
    (outcome : HOutcome) (hnd : (assocKeys st.receivedRequest).Nodup)
    (ht : st.writeTransport = true) (hl : st.loopAttached = true) :
    (∀ e : ReceivedRequestEntry,
      (id, e) ∉ (requestDone st id outcome).receivedRequest) ∧
    (∀ id₂, id₂ ≠ id →
      assocGet id₂ (requestDone st id outcome).receivedRequest =
        assocGet id₂ st.receivedRequest) ∧
    (requestDone st id outcome).outgoing = st.outgoing ++
      [(match outcome with
        | .ok v => JsonRpcMsg.response id v
        | .cancelledOutcome =>
          JsonRpcMsg.errorResp id JsonRPCErrors.REQUEST_CANCELLED
            (some "Request canceled.") none
        | .rpcError code msg data =>
          JsonRpcMsg.errorResp id code
            (match msg with
             | some s => if s.isEmpty then some "JsonRPCErrorException" else some s
             | none => some "JsonRPCErrorException") data
        | .exn desc =>
          JsonRpcMsg.errorResp id JsonRPCErrors.INTERNAL_ERROR (some desc) none)] := by
  have hrecv : (requestDone st id outcome).receivedRequest =
      assocDel id st.receivedRequest := by
    cases outcome <;>
      simp [requestDone, sendResponse, sendError, sendMessage, ht, hl]
  refine ⟨?_, ?_, ?_⟩
  · intro e
    rw [hrecv]
    exact assocDel_not_mem id st.receivedRequest hnd e
  · intro id₂ hne
    rw [hrecv]
    exact assocGet_del_ne id id₂ st.receivedRequest hne
  · cases outcome <;>
      simp [requestDone, sendResponse, sendError, sendMessage, ht, hl]

/-- **C7** witness: a successful outcome on a one-entry table sends the
response and leaves the table empty. -/
theorem C7_witness :
    (∀ e : ReceivedRequestEntry,
      (RpcId.num 1, e) ∉
        (requestDone oneRecvState (RpcId.num 1)
          (.ok (some (JVal.strV "pong")))).receivedRequest) ∧
    (requestDone oneRecvState (RpcId.num 1)
        (.ok (some (JVal.strV "pong")))).outgoing =
      [JsonRpcMsg.response (RpcId.num 1) (some (JVal.strV "pong"))] := by
  obtain ⟨h1, -, h3⟩ := C7_terminal_state_drops_entry oneRecvState (RpcId.num 1)
    (.ok (some (JVal.strV "pong"))) (by decide) (by decide) (by decide)
  exact ⟨h1, h3⟩

/-- **C9** (confirmed): method registration is idempotent per name with
last-write-wins: after two `add_method` calls under one name the registry
holds exactly one entry for that name — the later one — with no duplicate
keys; other names are untouched, and `get_entry` is total, returning the
entry when the name is present and `none` exactly when it is absent. -/
theorem C9_registry_last_write_wins {H : Type _} (reg : RpcRegistry H)
    (n : String) (f₁ f₂ : H) (pt₁ pt₂ : Option RType) (c₁ c₂ : Bool)
    (hnd : (assocKeys reg).Nodup) :
    getEntry (addMethod (addMethod reg n f₁ pt₁ c₁) n f₂ pt₂ c₂) n =
      some ⟨n, f₂, pt₂, c₂⟩ ∧
    (assocKeys (addMethod (addMethod reg n f₁ pt₁ c₁) n f₂ pt₂ c₂)).count n = 1 ∧
    (assocKeys (addMethod (addMethod reg n f₁ pt₁ c₁) n f₂ pt₂ c₂)).Nodup ∧
    (∀ m, m ≠ n →
      getEntry (addMethod (addMethod reg n f₁ pt₁ c₁) n f₂ pt₂ c₂) m =
        getEntry reg m) ∧
    (∀ (r : RpcRegistry H) (m : String), getEntry r m = none ↔ m ∉ assocKeys r) := by
  have hnd₁ : (assocKeys (addMethod reg n f₁ pt₁ c₁)).Nodup :=
    assocPut_nodup n _ reg hnd
  have hnd₂ : (assocKeys (addMethod (addMethod reg n f₁ pt₁ c₁) n f₂ pt₂ c₂)).Nodup :=
    assocPut_nodup n _ _ hnd₁
  have hget : getEntry (addMethod (addMethod reg n f₁ pt₁ c₁) n f₂ pt₂ c₂) n =
      some ⟨n, f₂, pt₂, c₂⟩ := assocGet_put_hit n _ _
  refine ⟨hget, ?_, hnd₂, ?_, ?_⟩
  · have hmem : n ∈ assocKeys (addMethod (addMethod reg n f₁ pt₁ c₁) n f₂ pt₂ c₂) := by
      by_contra hnmem
      have h₀ : getEntry (addMethod (addMethod reg n f₁ pt₁ c₁) n f₂ pt₂ c₂) n = none :=
        (assocGet_none_iff _ _).2 hnmem
      rw [hget] at h₀
      cases h₀
    exact List.count_eq_one_of_mem hnd₂ hmem
  · intro m hm
    show assocGet m (assocPut n ⟨n, f₂, pt₂, c₂⟩ (assocPut n ⟨n, f₁, pt₁, c₁⟩ reg)) =
      assocGet m reg
    rw [assocGet_put_miss n m _ _ hm, assocGet_put_miss n m _ _ hm]
  · intro r m
    exact assocGet_none_iff m r

/-- **C9** witness: two registrations of `"ping"` on the empty registry. -/
theorem C9_witness :
    getEntry (addMethod (addMethod ([] : RpcRegistry Nat) "ping" 1 none true)
        "ping" 2 none false) "ping" = some ⟨"ping", 2, none, false⟩ ∧
    (assocKeys (addMethod (addMethod ([] : RpcRegistry Nat) "ping" 1 none true)
        "ping" 2 none false)).count "ping" = 1 := by
  obtain ⟨h1, h2, -⟩ := C9_registry_last_write_wins ([] : RpcRegistry Nat)
    "ping" 1 2 none none true false (by decide)
  exact ⟨h1, h2⟩

/-- **C10** (confirmed): with no write transport attached (or the loop
cleared by `connection_lost`), `send_message` writes nothing and raises
nothing, so outbound messages are silently dropped; `send_request` in this
state still increments the id counter and stores a `SendedRequestEntry`
while writing nothing — leaving a pending handle no reply can ever answer,
since the request was never sent. -/
theorem C10_no_transport_drops_writes (st : ProtoState) (m : JsonRpcMsg)
    (method : String) (params : Option JVal) (rt : Option RType)
    (h : st.writeTransport = false ∨ st.loopAttached = false) :
    sendMessage st m = st ∧
    (sendRequest st method params rt).2 = st.sendedRequestCount + 1 ∧
    (sendRequest st method params rt).1 =
      { st with
        sendedRequestCount := st.sendedRequestCount + 1,
        sendedRequest :=
          assocPut (RpcId.num (st.sendedRequestCount + 1)) ⟨freshFut, rt⟩
            st.sendedRequest } ∧
    (sendRequest st method params rt).1.outgoing = st.outgoing := by
  have hcond : (st.writeTransport && st.loopAttached) = false := by
    rcases h with h | h <;> simp [h]
  refine ⟨?_, rfl, ?_, ?_⟩
  · simp [sendMessage, hcond]
  · simp [sendRequest, sendMessage, hcond]
  · simp [sendRequest, sendMessage, hcond]

/-- **C10** witness: on `detachedState` a notification is dropped and
`send_request` stores an entry without writing. -/
theorem C10_witness :
    sendMessage detachedState (JsonRpcMsg.notification "m" none) = detachedState ∧
    (sendRequest detachedState "m" none none).1.outgoing = [] := by
  obtain ⟨h1, -, -, h4⟩ := C10_no_transport_drops_writes detachedState
    (JsonRpcMsg.notification "m" none) "m" none none (Or.inl (by decide))
  exact ⟨h1, h4⟩

/-- **C1** (corrected: `handle_error` does not pop the SentRequest).
Counterexample: with sent request id 1 outstanding, handling the matching
incoming Error message leaves the whole state — including the sent-request
table — unchanged and merely raises `JsonRPCErrorException`; the entry is
not popped and its pending future is not rejected. -/
theorem C1_counterexample :
    (handleError oneSentState (RpcId.num 1) (-32000) (some "boom") none).1 =
      oneSentState ∧
    assocGet (RpcId.num 1) oneSentState.sendedRequest = some ⟨freshFut, none⟩ ∧
    (handleError oneSentState (RpcId.num 1) (-32000) (some "boom") none).2 =
      ErrAct.raisedException (-32000) (some "boom") none := by
  decide

/-- **C1** (amended): a Response with a null id, or whose id has no entry,
reports Internal Error locally and continues without touching the table; a
Response with a matching id pops the entry and resolves its pending future
with the result converted to the declared result type (`None` results pass
through; a conversion failure rejects the future).  An incoming Error
message, however, only raises `JsonRPCErrorException` inside its message
task: the SentRequest table is untouched and the pending future is neither
resolved nor rejected. -/
theorem C1_response_pops_error_only_raises (st : ProtoState) (id : RpcId)
    (result : Option JVal) :
    (handleResponse st RpcId.null result =
      (sendError st JsonRPCErrors.INTERNAL_ERROR
        (some "Invalid response. Response id is null.") RpcId.null none,
       .reportedError)) ∧
    (id ≠ RpcId.null → assocGet id st.sendedRequest = none →
      handleResponse st id result =
        (sendError st JsonRPCErrors.INTERNAL_ERROR
          (some "Invalid response. Could not find id in request list.")
          RpcId.null none, .reportedError)) ∧
    (∀ entry, id ≠ RpcId.null → assocGet id st.sendedRequest = some entry →
      entry.fut.done = false →
      (handleResponse st id result).1.sendedRequest = assocDel id st.sendedRequest ∧
      (handleResponse st id result).1.outgoing = st.outgoing ∧
      (result = none → (handleResponse st id result).2 = .resolvedOk none) ∧
      (∀ r v, result = some r → fromDictModel entry.resultType r = .ok v →
        (handleResponse st id result).2 = .resolvedOk (some v)) ∧
      (∀ r e, result = some r → fromDictModel entry.resultType r = .error e →
        (handleResponse st id result).2 = .rejected e)) ∧
    (∀ code msg data,
      handleError st id code msg data = (st, .raisedException code msg data)) := by
  refine ⟨by simp [handleResponse], ?_, ?_, fun code msg data => rfl⟩
  · intro hne hnone
    simp [handleResponse, hne, hnone]
  · intro entry hne hsome hdone
    have hbase : handleResponse st id result =
        ({ st with sendedRequest := assocDel id st.sendedRequest },
         match result with
         | none => RespAct.resolvedOk none
         | some r =>
           match fromDictModel entry.resultType r with
           | .ok v => RespAct.resolvedOk (some v)
           | .error e => RespAct.rejected e) := by
      cases result with
      | none => simp [handleResponse, hne, hsome, hdone]
      | some r =>
        cases hconv : fromDictModel entry.resultType r with
        | ok v => simp [handleResponse, hne, hsome, hdone, hconv]
        | error e => simp [handleResponse, hne, hsome, hdone, hconv]
    refine ⟨by rw [hbase], by rw [hbase], ?_, ?_, ?_⟩
    · intro hr
      subst hr
      rw [hbase]
    · intro r v hr hconv
      subst hr
      rw [hbase]
      simp [hconv]
    · intro r e hr hconv
      subst hr
      rw [hbase]
      simp [hconv]

/-- **C1** witness: a Response for outstanding id 1 pops the entry and
resolves the future with the (untyped) result. -/
theorem C1_witness :
    assocGet (RpcId.num 1) oneSentState.sendedRequest = some ⟨freshFut, none⟩ ∧
    (handleResponse oneSentState (RpcId.num 1) (some (JVal.numV 5))).1.sendedRequest
      = [] ∧
    (handleResponse oneSentState (RpcId.num 1) (some (JVal.numV 5))).2 =
      RespAct.resolvedOk (some (JVal.numV 5)) := by
  obtain ⟨-, -, h3, -⟩ :=
    C1_response_pops_error_only_raises oneSentState (RpcId.num 1)
      (some (JVal.numV 5))
  obtain ⟨ha, -, -, hd, -⟩ := h3 ⟨freshFut, none⟩ (by decide) (by decide) (by decide)
  exact ⟨by decide, ha.trans (by decide), hd (JVal.numV 5) (JVal.numV 5) rfl rfl⟩

/-- **C4** (corrected: with malformed or Content-Length-free headers the
pattern does not match, so `body` defaults to empty and `length` to 1, the
guard `0 < 1` returns immediately and nothing is ever emitted).
Counterexample: the complete malformed header block `"X\r\n\r\n"` — the
claim says a body is still emitted to the decode stage, but the framer emits
nothing and keeps everything buffered. -/
theorem C4_counterexample :
    (dataReceived ⟨[]⟩ [88, 13, 10, 13, 10]).2 = [] ∧
    (dataReceived ⟨[]⟩ [88, 13, 10, 13, 10]).1 = ⟨[88, 13, 10, 13, 10]⟩ ∧
    messageMatch [88, 13, 10, 13, 10] = none := by
  decide

/-- **C4** (amended): whenever the buffered input does not match
`MESSAGE_PATTERN` (malformed headers, missing Content-Length, or simply an
incomplete frame), `data_received` returns right away — the default length 1
exceeds the empty default body, so nothing is emitted, nothing reaches the
decode stage, and the entire input stays buffered for the next chunk. -/
theorem C4_no_match_emits_nothing (st : FramerState) (data : List Nat)
    (hne : data ≠ []) (h : messageMatch (st.messageBuf ++ data) = none) :
    dataReceived st data = (⟨st.messageBuf ++ data⟩, []) :=
  dataReceived_noEmit st data hne (Or.inl h)

/-- **C4** witness: the malformed header block buffers without emitting. -/
theorem C4_witness :
    ([88, 13, 10, 13, 10] : List Nat) ≠ [] ∧
    messageMatch (([] : List Nat) ++ [88, 13, 10, 13, 10]) = none ∧
    dataReceived ⟨[]⟩ [88, 13, 10, 13, 10] =
      (⟨([] : List Nat) ++ [88, 13, 10, 13, 10]⟩, []) := by
  refine ⟨by decide, by decide, ?_⟩
  exact C4_no_match_emits_nothing ⟨[]⟩ [88, 13, 10, 13, 10] (by decide) (by decide)

/-- `send_error` touches only the outbound channel. -/
theorem sendError_tables (st : ProtoState) (code : Int) (msg : Option String)
    (id : RpcId) (data : Option JVal) :
    (sendError st code msg id data).sendedRequest = st.sendedRequest ∧
    (sendError st code msg id data).sendedRequestCount = st.sendedRequestCount ∧
    (sendError st code msg id data).receivedRequest = st.receivedRequest := by
  by_cases h : (st.writeTransport && st.loopAttached) = true <;>
    simp [sendError, sendMessage, h]

/-- `handle_response` keeps the id counter and either leaves the table alone
or pops exactly the answered id. -/
theorem handleResponse_sent (st : ProtoState) (id : RpcId) (res : Option JVal) :
    (handleResponse st id res).1.sendedRequestCount = st.sendedRequestCount ∧
    ((handleResponse st id res).1.sendedRequest = st.sendedRequest ∨
      (handleResponse st id res).1.sendedRequest = assocDel id st.sendedRequest) := by
  by_cases hid : id = RpcId.null
  · subst hid
    simp only [handleResponse, if_pos rfl]
    exact ⟨(sendError_tables st _ _ _ _).2.1, Or.inl (sendError_tables st _ _ _ _).1⟩
  · cases hg : assocGet id st.sendedRequest with
    | none =>
      simp only [handleResponse, if_neg hid, hg]
      exact ⟨(sendError_tables st _ _ _ _).2.1, Or.inl (sendError_tables st _ _ _ _).1⟩
    | some entry =>
      by_cases hdone : entry.fut.done
      · simp only [handleResponse, if_neg hid, hg, if_pos hdone]
        exact ⟨trivial, Or.inr trivial⟩
      · cases res with
        | none =>
          simp only [handleResponse, if_neg hid, hg, if_neg hdone]
          exact ⟨trivial, Or.inr trivial⟩
        | some r =>
          cases hconv : fromDictModel entry.resultType r with
          | ok v =>
            simp only [handleResponse, if_neg hid, hg, if_neg hdone, hconv]
            exact ⟨trivial, Or.inr trivial⟩
          | error e =>
            simp only [handleResponse, if_neg hid, hg, if_neg hdone, hconv]
            exact ⟨trivial, Or.inr trivial⟩

/-- **C8** (confirmed): `send_request` allocates `counter + 1` as the id —
strictly larger than every previously allocated id — stores the new
`SendedRequestEntry` under it, writes the Request carrying it, and preserves
the table invariant, so outstanding ids stay pairwise distinct; popping a
reply in `handle_response` also preserves the invariant. -/
theorem C8_ids_monotonic_and_distinct (st : ProtoState) (method : String)
    (params : Option JVal) (rt : Option RType) (hinv : SentInv st)
    (ht : st.writeTransport = true) (hl : st.loopAttached = true) :
    (sendRequest st method params rt).2 = st.sendedRequestCount + 1 ∧
    (∀ k : Nat, sentIdOk st.sendedRequestCount (RpcId.num k) = true →
      k < (sendRequest st method params rt).2) ∧
    assocGet (RpcId.num ((sendRequest st method params rt).2 : Int))
      (sendRequest st method params rt).1.sendedRequest = some ⟨freshFut, rt⟩ ∧
    (sendRequest st method params rt).1.outgoing = st.outgoing ++
      [JsonRpcMsg.request (RpcId.num (st.sendedRequestCount + 1)) method params] ∧
    SentInv (sendRequest st method params rt).1 ∧
    (assocKeys (sendRequest st method params rt).1.sendedRequest).Nodup ∧
    (∀ (st₂ : ProtoState) (id : RpcId) (res : Option JVal),
      SentInv st₂ → SentInv (handleResponse st₂ id res).1) := by
  obtain ⟨hnd, hok⟩ := hinv
  have hfresh : assocGet (RpcId.num (st.sendedRequestCount + 1)) st.sendedRequest
      = none := by
    rw [assocGet_none_iff]
    intro hmem
    have := hok _ hmem
    simp only [sentIdOk, Bool.and_eq_true, decide_eq_true_eq] at this
    omega
  have hkeys := assocKeys_put_fresh (RpcId.num (st.sendedRequestCount + 1))
    (⟨freshFut, rt⟩ : SendedRequestEntry) st.sendedRequest hfresh
  have hsent : (sendRequest st method params rt).1.sendedRequest =
      assocPut (RpcId.num (st.sendedRequestCount + 1)) ⟨freshFut, rt⟩
        st.sendedRequest := by
    simp [sendRequest, sendMessage, ht, hl]
  have hcnt : (sendRequest st method params rt).1.sendedRequestCount =
      st.sendedRequestCount + 1 := by
    simp [sendRequest, sendMessage, ht, hl]
  have hnd₂ : (assocKeys (sendRequest st method params rt).1.sendedRequest).Nodup := by
    rw [hsent]
    exact assocPut_nodup _ _ _ hnd
  refine ⟨rfl, ?_, ?_, ?_, ⟨hnd₂, ?_⟩, hnd₂, ?_⟩
  · intro k hk
    simp only [sentIdOk, Bool.and_eq_true, decide_eq_true_eq] at hk
    show k < st.sendedRequestCount + 1
    omega
  · rw [hsent]
    exact assocGet_put_hit _ _ _
  · simp [sendRequest, sendMessage, ht, hl]
  · intro i hi
    rw [hsent, hkeys] at hi
    rw [hcnt]
    rcases List.mem_append.1 hi with hi | hi
    · have := hok _ hi
      cases i with
      | num k =>
        simp only [sentIdOk, Bool.and_eq_true, decide_eq_true_eq] at this ⊢
        omega
      | str s => simp [sentIdOk] at this
      | null => simp [sentIdOk] at this
    · simp only [List.mem_singleton] at hi
      subst hi
      simp only [sentIdOk, Bool.and_eq_true, decide_eq_true_eq]
      omega
  · intro st₂ id res hinv₂
    obtain ⟨hnd₂, hok₂⟩ := hinv₂
    obtain ⟨hcnt₂, hsr⟩ := handleResponse_sent st₂ id res
    refine ⟨?_, ?_⟩
    · rcases hsr with h | h
      · rw [h]; exact hnd₂
      · rw [h]; exact assocDel_nodup _ _ hnd₂
    · intro i hi
      rw [hcnt₂]
      rcases hsr with h | h
      · rw [h] at hi
        exact hok₂ i hi
      · rw [h] at hi
        exact hok₂ i (List.Sublist.subset (assocDel_sublist id st₂.sendedRequest) hi)

/-- **C8** witness: the first request on a fresh connection gets id 1 and a
duplicate-free table. -/
theorem C8_witness :
    (sendRequest baseState "m" none none).2 = 1 ∧
    assocGet (RpcId.num 1) (sendRequest baseState "m" none none).1.sendedRequest =
      some ⟨freshFut, none⟩ ∧
    (assocKeys (sendRequest baseState "m" none none).1.sendedRequest).Nodup := by
  obtain ⟨h1, -, h3, -, -, h6, -⟩ := C8_ids_monotonic_and_distinct baseState "m"
    none none ⟨by decide, by decide⟩ (by decide) (by decide)
  exact ⟨h1, h3, h6⟩

/-- **C3** (corrected: the greedy leading-line group of `MESSAGE_PATTERN`
resynchronizes on header-like text inside a body).  Counterexample: a valid
frame declaring 25 body bytes whose body embeds
`"Content-Length: 1\r\n\r\nY"`, delivered as one chunk — the framer emits
`"Y"` instead of the declared 25-byte body. -/
theorem C3_counterexample :
    (feedChunks ⟨[]⟩ [mkFrame trickyBody]).2 ≠ [(trickyBody, defaultCharset)] ∧
    feedChunks ⟨[]⟩ [mkFrame trickyBody] = (⟨[]⟩, [([89], defaultCharset)]) := by
  decide

/-- **C3** (amended): for every frame made of a Content-Length header, a
blank line, and a body of exactly the declared length containing no
carriage-return byte (0x0D), and for every way of splitting that frame into
chunks, feeding the chunks one at a time emits exactly the original body
with the default UTF-8 charset and ends with an empty buffer. -/
theorem C3_chunk_boundary_invariance (body : List Nat)
    (chunks : List (List Nat)) (h13 : 13 ∉ body)
    (h : chunks.flatten = mkFrame body) :
    feedChunks ⟨[]⟩ chunks = (⟨[]⟩, [(body, defaultCharset)]) := by
  refine feedChunks_frame_aux body h13 chunks [] (by simpa using h) ?_
  intro h0
  exact mkFrame_ne_nil body h0.symm

/-- **C3** witness: the frame for body `"abc"` split after byte 7. -/
theorem C3_witness :
    (13 : Nat) ∉ smallBody ∧
    ([(mkFrame smallBody).take 7, (mkFrame smallBody).drop 7] :
        List (List Nat)).flatten = mkFrame smallBody ∧
    feedChunks ⟨[]⟩ [(mkFrame smallBody).take 7, (mkFrame smallBody).drop 7] =
      (⟨[]⟩, [(smallBody, defaultCharset)]) := by
  refine ⟨by decide, by decide, ?_⟩
  exact C3_chunk_boundary_invariance smallBody _ (by decide) (by decide)

/-- **C5** (corrected: within one batch body, the version error aborts the
remaining elements).  Counterexample: the batch `[bad version, good
request]` — only a Parse Error goes out and the well-formed second message
is never dispatched, contradicting "the rejection affects only that
message". -/
theorem C5_counterexample :
    handleBody pingReg pingRun baseState (.batch [badVersionObj, goodPingObj]) =
      { baseState with outgoing :=
          [JsonRpcMsg.errorResp RpcId.null JsonRPCErrors.PARSE_ERROR
            (some (errText .invalidVersion)) none] } ∧
    JsonRpcMsg.response (RpcId.num 2) (some (JVal.strV "pong")) ∉
      (handleBody pingReg pingRun baseState
        (.batch [badVersionObj, goodPingObj])).outgoing := by
  decide

/-- **C5** (amended): a `jsonrpc` value different from the literal "2.0"
raises `InvalidProtocolVersionError` before the message could be
dispatched; the batch elements decoded before it were already dispatched,
the offender and every later element of the same body are dropped, a single
Error(-32700) is reported, and the call returns normally — a subsequent
well-formed body is decoded and dispatched as usual, so the connection
stays open. -/
theorem C5_version_mismatch_rejected {H : Type _} (reg : RpcRegistry H)
    (run : H → Option JVal → HOutcome) (st : ProtoState) (goods : List JObj)
    (bad : JObj) (rest : List JObj) (ms : List JsonRpcMsg) (v : JVal)
    (hgood : genMessages goods = (ms, none))
    (hv : assocGet "jsonrpc" bad = some v) (hne : v ≠ JVal.strV "2.0") :
    handleBody reg run st (.batch (goods ++ bad :: rest)) =
      sendError (handleMessages reg run st ms) JsonRPCErrors.PARSE_ERROR
        (some (errText .invalidVersion)) RpcId.null none ∧
    (∀ (st₂ : ProtoState) (d : JObj) (m : JsonRpcMsg), innerDecode d = .ok m →
      handleBody reg run st₂ (.single d) = handleMessages reg run st₂ [m]) := by
  constructor
  · have hbad := innerDecode_badVersion bad v hv hne
    have hgen := genMessages_ok_append goods ms bad rest .invalidVersion hgood hbad
    simp [handleBody, hgen]
  · intro st₂ d m hd
    exact handleBody_single_ok reg run st₂ d m hd

/-- **C5** witness: a good request before the bad-version element is
dispatched, then the parse error is reported. -/
theorem C5_witness :
    genMessages [goodPingObj] =
      ([JsonRpcMsg.request (RpcId.num 2) "ping" none], none) ∧
    handleBody pingReg pingRun baseState
        (.batch ([goodPingObj] ++ badVersionObj :: [])) =
      sendError (handleMessages pingReg pingRun baseState
          [JsonRpcMsg.request (RpcId.num 2) "ping" none])
        JsonRPCErrors.PARSE_ERROR (some (errText .invalidVersion))
        RpcId.null none := by
  refine ⟨by decide, ?_⟩
  exact (C5_version_mismatch_rejected pingReg pingRun baseState [goodPingObj]
    badVersionObj [] [JsonRpcMsg.request (RpcId.num 2) "ping" none]
    (JVal.strV "1.0") (by decide) (by decide) (by decide)).1

/-- **C6** (confirmed): a request whose method has no registry entry gets
Error(-32601) keyed to its id and stores no `ReceivedRequestEntry`, and a
well-formed request dispatched in the same batch still completes: the final
state differs from the initial one only by the two outbound messages. -/
theorem C6_method_not_found {H : Type _} (reg : RpcRegistry H)
    (run : H → Option JVal → HOutcome) (st : ProtoState) (id₁ id₂ : RpcId)
    (m₁ m₂ : String) (p₁ p₂ : Option JVal) (e : RpcMethodEntry H)
    (v : Option JVal) (h₁ : getEntry reg m₁ = none)
    (h₂ : getEntry reg m₂ = some e) (hrun : run e.method p₂ = .ok v)
    (hfresh : assocGet id₂ st.receivedRequest = none)
    (ht : st.writeTransport = true) (hl : st.loopAttached = true) :
    handleMessages reg run st [.request id₁ m₁ p₁, .request id₂ m₂ p₂] =
      { st with outgoing := st.outgoing ++
          [JsonRpcMsg.errorResp id₁ JsonRPCErrors.METHOD_NOT_FOUND
             (some ("Unknown method: " ++ m₁)) none,
           JsonRpcMsg.response id₂ v] } := by
  have step1 : handleMessage reg run st (.request id₁ m₁ p₁) =
      { st with outgoing := st.outgoing ++
          [JsonRpcMsg.errorResp id₁ JsonRPCErrors.METHOD_NOT_FOUND
             (some ("Unknown method: " ++ m₁)) none] } := by
    simp [handleMessage, handleRequest, h₁, sendError, sendMessage, ht, hl]
  have hdel := assocDel_put_fresh id₂
    (⟨freshFut, some (.request id₂ m₂ p₂), e.cancelable⟩ : ReceivedRequestEntry)
    st.receivedRequest hfresh
  show handleMessage reg run (handleMessage reg run st (.request id₁ m₁ p₁))
      (.request id₂ m₂ p₂) = _
  rw [step1]
  simp [handleMessage, handleRequest, h₂, hrun, requestDone, sendResponse,
    sendMessage, ht, hl, hdel]

/-- **C6** witness: `"nope"` is unregistered, `"ping"` still answers. -/
theorem C6_witness :
    getEntry pingReg "nope" = none ∧
    handleMessages pingReg pingRun baseState
        [.request (RpcId.num 1) "nope" none, .request (RpcId.num 2) "ping" none] =
      { baseState with outgoing :=
          [JsonRpcMsg.errorResp (RpcId.num 1) JsonRPCErrors.METHOD_NOT_FOUND
             (some ("Unknown method: " ++ "nope")) none,
           JsonRpcMsg.response (RpcId.num 2) (some (JVal.strV "pong"))] } := by
  refine ⟨by decide, ?_⟩
  exact C6_method_not_found pingReg pingRun baseState (RpcId.num 1) (RpcId.num 2)
    "nope" "ping" none none ⟨"ping", 0, none, true⟩ (some (JVal.strV "pong"))
    (by decide) (by decide) rfl (by decide) (by decide) (by decide)

end RobotCode
